import Mathlib

/-!
Verification development for the XML Encryption engine (`src/xmlenc.c` of the
xmlsec library).  The data model embeds libxml2 element trees shallowly; the
template builders, the `EncryptedData` driver, the `CipherData` driver and the
four public operations (`xmlSecEncryptMemory`, `xmlSecEncryptUri`,
`xmlSecEncryptXmlNode`, `xmlSecDecrypt`) are translated from the C source.
External collaborators (the transform registry, the base64 codec, the key
manager, the dsig `KeyInfo` writer, URI dereferencing and the XML parser used
for splicing) are out of scope of the source file and enter as parameters in
an `Externals` record.
-/

namespace XmlSec

/-- Byte strings (buffers, key values, serialized XML). -/
abbrev Bytes := List Nat

/-- Attribute map of an XML element, mirroring `xmlGetProp`: attribute name to
optional value. -/
def Attrs := String → Option String

/-- Empty attribute map. -/
def noAttrs : Attrs := fun _ => none

/-- Modelled from the spec: `xmlSetProp`-style functional update of an
attribute map, applied only when a value is supplied (the builders set
optional attributes only when non-NULL). -/
def setPropOpt (a : Attrs) (k : String) (v : Option String) : Attrs :=
  match v with
  | none => a
  | some s => fun q => if q = k then some s else a q

/-- Shallow model of a libxml node: an element with name, namespace,
attributes and children, or a text node carrying raw bytes. -/
inductive XNode where
  | elem (name : String) (ns : String) (attrs : Attrs) (children : List XNode)
  | text (content : Bytes)

/-- Children of a node (`node->children`); text nodes have none. -/
def nodeChildren : XNode → List XNode
  | .elem _ _ _ cs => cs
  | .text _ => []

/-- Attribute map of a node; text nodes have none. -/
def nodeAttrs : XNode → Attrs
  | .elem _ _ a _ => a
  | .text _ => noAttrs

/-- Modelled from the spec: check-node-name helper (`xmlSecCheckNodeName`):
the node is an element with the given name and namespace. -/
def xmlSecCheckNodeName (n : XNode) (name ns : String) : Bool :=
  match n with
  | .elem nm nsp _ _ => decide (nm = name) && decide (nsp = ns)
  | .text _ => false

/-- Modelled from the spec: next-element helper (`xmlSecGetNextElementNode`):
returns the suffix of a sibling list starting at its first element node. -/
def xmlSecGetNextElementNode : List XNode → List XNode
  | [] => []
  | .text _ :: rest => xmlSecGetNextElementNode rest
  | .elem n ns a cs :: rest => .elem n ns a cs :: rest

/-- Modelled from the spec: find-child-with-namespace helper
(`xmlSecFindChild`): first immediate child element with the given name and
namespace. -/
def xmlSecFindChild (children : List XNode) (name ns : String) : Option XNode :=
  match children with
  | [] => none
  | c :: rest =>
    if xmlSecCheckNodeName c name ns then some c else xmlSecFindChild rest name ns

/-- Modelled from the spec: `xmlSecAddPrevSibling` of the first element child,
as used by the builders: the new node is inserted directly before the first
element node of the sibling list. -/
def insertBeforeFirstElem (new : XNode) : List XNode → List XNode
  | [] => [new]
  | .text t :: rest => .text t :: insertBeforeFirstElem new rest
  | .elem n ns a cs :: rest => new :: .elem n ns a cs :: rest

/-- Modelled from the spec: `xmlSecAddNextSibling` after the first child with
the given name and namespace, as used by `xmlSecEncDataAddKeyInfo`. -/
def insertAfterNamed (name ns : String) (new : XNode) : List XNode → List XNode
  | [] => [new]
  | c :: rest =>
    if xmlSecCheckNodeName c name ns then c :: new :: rest
    else c :: insertAfterNamed name ns new rest

/-- Replacement of the first child with the given name and namespace by a new
node; this models in-place mutation through a pointer obtained from
`xmlSecFindChild` (which returns the first such child). -/
def replaceFirstNamed (name ns : String) (new : XNode) : List XNode → List XNode
  | [] => []
  | c :: rest =>
    if xmlSecCheckNodeName c name ns then new :: rest
    else c :: replaceFirstNamed name ns new rest

/-- Replacement of the first element node of a sibling list; this models
in-place mutation through the pointer returned by
`xmlSecGetNextElementNode`. -/
def replaceFirstElem (new : XNode) : List XNode → List XNode
  | [] => []
  | .text t :: rest => .text t :: replaceFirstElem new rest
  | .elem _ _ _ _ :: rest => new :: rest

/-- Modelled from the spec: `xmlNodeGetContent`, the concatenation of all text
content below a node. -/
def xmlNodeGetContent : XNode → Bytes
  | .text b => b
  | .elem _ _ _ cs => goList cs
where
  /-- Content of a list of sibling nodes. -/
  goList : List XNode → Bytes
  | [] => []
  | .text b :: rest => b ++ goList rest
  | .elem _ _ _ cs :: rest => goList cs ++ goList rest

/-- Modelled from the spec: the `xmlNodeSetContent` / `xmlNodeAddContent`
sequence used by `xmlSecCipherDataNodeWrite`: the node's children are replaced
by a single text node (libxml2 coalesces adjacent text content). -/
def setNodeContent (n : XNode) (b : Bytes) : XNode :=
  match n with
  | .elem nm ns a _ => .elem nm ns a [.text b]
  | .text _ => .text b

/-- Error kinds of the engine, one per `XMLSEC_ERRORS_R_*` code raised in
`xmlenc.c`; `nullDeref` marks the crash of dereferencing a NULL pointer. -/
inductive Err where
  | xmlFailed
  | xmlsecFailed
  | invalidData
  | keyNotFound
  | nodeNotFound
  | invalidNode
  | invalidNodeContent
  | invalidType
  | nodeAlreadyPresent
  | invalidTransform
  | nullDeref
deriving DecidableEq, Repr

/-- Namespace constant `xmlSecEncNs`. -/
def xmlSecEncNs : String := "http://www.w3.org/2001/04/xmlenc#"

/-- Namespace constant `xmlSecDSigNs`. -/
def xmlSecDSigNs : String := "http://www.w3.org/2000/09/xmldsig#"

/-- URI constant `xmlSecEncTypeElement`. -/
def xmlSecEncTypeElement : String := "http://www.w3.org/2001/04/xmlenc#Element"

/-- URI constant `xmlSecEncTypeContent`. -/
def xmlSecEncTypeContent : String := "http://www.w3.org/2001/04/xmlenc#Content"

/-! ## Template builders (xmlenc.c lines 160-592) -/

/-- Translation of `xmlSecEncDataCreate`: a fresh `EncryptedData` element with
the optional `Id`/`Type`/`MimeType`/`Encoding` attributes and a `CipherData`
child pre-attached. -/
def xmlSecEncDataCreate (i ty mt enc : Option String) : XNode :=
  .elem "EncryptedData" xmlSecEncNs
    (setPropOpt (setPropOpt (setPropOpt (setPropOpt noAttrs "Id" i) "Type" ty)
      "MimeType" mt) "Encoding" enc)
    [.elem "CipherData" xmlSecEncNs noAttrs []]

/-- Translation of `xmlSecEncDataAddEncMethod`: fails if an
`EncryptionMethod` child is already present, otherwise inserts the new node
before the first element child (appending when there is none); the algorithm
identifier is written as the `Algorithm` attribute (`xmlSecTransformNodeWrite`). -/
def xmlSecEncDataAddEncMethod (encNode : XNode) (alg : String) : Except Err XNode :=
  match encNode with
  | .text _ => .error .invalidNode
  | .elem nm ns a children =>
    match xmlSecFindChild children "EncryptionMethod" xmlSecEncNs with
    | some _ => .error .nodeAlreadyPresent
    | none =>
      let m : XNode :=
        .elem "EncryptionMethod" xmlSecEncNs (setPropOpt noAttrs "Algorithm" (some alg)) []
      match xmlSecGetNextElementNode children with
      | [] => .ok (.elem nm ns a (children ++ [m]))
      | _ :: _ => .ok (.elem nm ns a (insertBeforeFirstElem m children))

/-- Translation of `xmlSecEncDataAddKeyInfo`: fails if a `KeyInfo` child is
already present; inserts after `EncryptionMethod` when that exists, else
before the first element child, else appends. -/
def xmlSecEncDataAddKeyInfo (encNode : XNode) : Except Err XNode :=
  match encNode with
  | .text _ => .error .invalidNode
  | .elem nm ns a children =>
    match xmlSecFindChild children "KeyInfo" xmlSecDSigNs with
    | some _ => .error .nodeAlreadyPresent
    | none =>
      let ki : XNode := .elem "KeyInfo" xmlSecDSigNs noAttrs []
      match xmlSecFindChild children "EncryptionMethod" xmlSecEncNs with
      | some _ => .ok (.elem nm ns a (insertAfterNamed "EncryptionMethod" xmlSecEncNs ki children))
      | none =>
        match xmlSecGetNextElementNode children with
        | [] => .ok (.elem nm ns a (children ++ [ki]))
        | _ :: _ => .ok (.elem nm ns a (insertBeforeFirstElem ki children))

/-- Translation of `xmlSecEncDataAddEncProperties`: fails if already present,
otherwise appends an `EncryptionProperties` child at the end. -/
def xmlSecEncDataAddEncProperties (encNode : XNode) (i : Option String) : Except Err XNode :=
  match encNode with
  | .text _ => .error .invalidNode
  | .elem nm ns a children =>
    match xmlSecFindChild children "EncryptionProperties" xmlSecEncNs with
    | some _ => .error .nodeAlreadyPresent
    | none =>
      .ok (.elem nm ns a (children ++
        [.elem "EncryptionProperties" xmlSecEncNs (setPropOpt noAttrs "Id" i) []]))

/-- Appending of a child element (`xmlSecAddChild`). -/
def nodeAppendChild (n : XNode) (c : XNode) : XNode :=
  match n with
  | .elem nm ns a cs => .elem nm ns a (cs ++ [c])
  | .text b => .text b

/-- Translation of `xmlSecEncDataAddCipherValue`: requires a `CipherData`
child, fails with `nodeAlreadyPresent` when that `CipherData` already holds a
`CipherValue` or a `CipherReference`, otherwise appends a fresh
`CipherValue`. -/
def xmlSecEncDataAddCipherValue (encNode : XNode) : Except Err XNode :=
  match encNode with
  | .text _ => .error .invalidNode
  | .elem nm ns a children =>
    match xmlSecFindChild children "CipherData" xmlSecEncNs with
    | none => .error .nodeNotFound
    | some cd =>
      match xmlSecFindChild (nodeChildren cd) "CipherValue" xmlSecEncNs with
      | some _ => .error .nodeAlreadyPresent
      | none =>
        match xmlSecFindChild (nodeChildren cd) "CipherReference" xmlSecEncNs with
        | some _ => .error .nodeAlreadyPresent
        | none =>
          let cd' := nodeAppendChild cd (.elem "CipherValue" xmlSecEncNs noAttrs [])
          .ok (.elem nm ns a (replaceFirstNamed "CipherData" xmlSecEncNs cd' children))

/-- Translation of `xmlSecEncDataAddCipherReference`: requires a `CipherData`
child, fails with `nodeAlreadyPresent` when that `CipherData` already holds a
`CipherValue` or a `CipherReference`, otherwise appends a fresh
`CipherReference` with the optional `URI` attribute. -/
def xmlSecEncDataAddCipherReference (encNode : XNode) (uri : Option String) : Except Err XNode :=
  match encNode with
  | .text _ => .error .invalidNode
  | .elem nm ns a children =>
    match xmlSecFindChild children "CipherData" xmlSecEncNs with
    | none => .error .nodeNotFound
    | some cd =>
      match xmlSecFindChild (nodeChildren cd) "CipherValue" xmlSecEncNs with
      | some _ => .error .nodeAlreadyPresent
      | none =>
        match xmlSecFindChild (nodeChildren cd) "CipherReference" xmlSecEncNs with
        | some _ => .error .nodeAlreadyPresent
        | none =>
          let cd' := nodeAppendChild cd
            (.elem "CipherReference" xmlSecEncNs (setPropOpt noAttrs "URI" uri) [])
          .ok (.elem nm ns a (replaceFirstNamed "CipherData" xmlSecEncNs cd' children))

/-! ## Builder call sequences (claim C7) -/

/-- One call to a template-builder helper on the `EncryptedData` node. -/
inductive BuildOp where
  | encMethod (alg : String)
  | keyInfo
  | encProperties (i : Option String)
  | cipherValue
  | cipherReference (uri : Option String)

/-- Application of one builder call; a failing call leaves the tree
unchanged. -/
def applyOp (t : XNode) : BuildOp → XNode
  | .encMethod a =>
    match xmlSecEncDataAddEncMethod t a with
    | .ok t' => t'
    | .error _ => t
  | .keyInfo =>
    match xmlSecEncDataAddKeyInfo t with
    | .ok t' => t'
    | .error _ => t
  | .encProperties i =>
    match xmlSecEncDataAddEncProperties t i with
    | .ok t' => t'
    | .error _ => t
  | .cipherValue =>
    match xmlSecEncDataAddCipherValue t with
    | .ok t' => t'
    | .error _ => t
  | .cipherReference u =>
    match xmlSecEncDataAddCipherReference t u with
    | .ok t' => t'
    | .error _ => t

/-- Application of a sequence of builder calls, left to right. -/
def applyOps (t : XNode) : List BuildOp → XNode
  | [] => t
  | op :: rest => applyOps (applyOp t op) rest

/-- Signature of a sibling list: the (name, namespace) pairs of its element
nodes in order. -/
def childSig : List XNode → List (String × String)
  | [] => []
  | .elem n ns _ _ :: rest => (n, ns) :: childSig rest
  | .text _ :: rest => childSig rest

/-- Schema order of `EncryptedData` children:
`EncryptionMethod?, KeyInfo?, CipherData, EncryptionProperties?`. -/
def schemaOrdered (t : XNode) : Prop :=
  ∃ b1 b2 b3 : Bool,
    childSig (nodeChildren t) =
      (if b1 then [("EncryptionMethod", xmlSecEncNs)] else []) ++
      (if b2 then [("KeyInfo", xmlSecDSigNs)] else []) ++
      [("CipherData", xmlSecEncNs)] ++
      (if b3 then [("EncryptionProperties", xmlSecEncNs)] else [])

/-! ## Keys, context, externals, transforms -/

/-- Key usage hint (`xmlSecKeyUsageEncrypt` / `xmlSecKeyUsageDecrypt`). -/
inductive KeyUsage where
  | unknown
  | encrypt
  | decrypt
deriving DecidableEq, Repr

/-- Cryptographic key: opaque value plus `origin` tag. -/
structure Key where
  value : Bytes
  origin : Nat
deriving DecidableEq, Repr

/-- Key-selection hints on the `KeysMngrCtx`, mutated by the driver before the
key-manager callback runs. -/
structure KeyHints where
  keyType : Nat
  keyUsage : KeyUsage
  keyId : Nat
deriving DecidableEq, Repr

/-- Encryption context (`xmlSecEncCtx`): optional default encryption method
and the `ignoreType` flag. -/
structure EncCtx where
  encryptionMethod : Option String
  ignoreType : Bool

/-- External collaborators of the engine, everything `xmlenc.c` calls that is
implemented outside it: the transform registry and its metadata, the cipher
and base64 codecs, key duplication, the key-manager callback, the dsig
`KeyInfo` writer, XML serialization and parsing, URI dereferencing, and the
`CipherReference` transform pipeline. -/
structure Externals where
  /-- Registry lookup for an `Algorithm` URI (`xmlSecTransformNodeRead`
  succeeds only for registered encryption methods). -/
  knownAlg : String → Bool
  /-- Metadata `xmlSecBinTransformIdGetEncKeyType`. -/
  encKeyType : String → Nat
  /-- Metadata `xmlSecBinTransformIdGetDecKeyType`. -/
  decKeyType : String → Nat
  /-- Metadata `xmlSecBinTransformIdGetKeyId`. -/
  algKeyId : String → Nat
  /-- Cipher in encrypt direction: algorithm, key value, data. -/
  cipherEnc : String → Bytes → Bytes → Bytes
  /-- Cipher in decrypt direction: algorithm, key value, data. -/
  cipherDec : String → Bytes → Bytes → Bytes
  /-- Base64 encoder transform. -/
  b64enc : Bytes → Bytes
  /-- Base64 decoder transform. -/
  b64dec : Bytes → Bytes
  /-- Key duplication (`xmlSecKeyDuplicate`); `none` models the NULL returned
  on allocation failure. -/
  keyDuplicate : Key → Option Key
  /-- Key-manager callback (`keysMngr->getKey`), when one exists; it receives
  the `KeyInfo` node (possibly absent) and the hints. -/
  getKey : Option (Option XNode → KeyHints → Option Key)
  /-- The dsig `KeyInfo` writer (`xmlSecKeyInfoNodeWrite`): new children for
  the `KeyInfo` node given the key value; `none` models failure. -/
  keyInfoWrite : List XNode → Bytes → Option (List XNode)
  /-- XML parse of a plaintext buffer for `xmlSecReplaceNodeBuffer`; `none`
  models failure. -/
  parseNodeBuffer : Bytes → Option (List XNode)
  /-- Subtree serialization (`xmlNodeDump`). -/
  nodeDump : XNode → Bytes
  /-- URI dereferencing for the `xmlSecInputUri` transform; `none` models an
  open failure. -/
  uriContent : String → Option Bytes
  /-- The `CipherReference` pipeline (`xmlSecCipherReferenceNodeRead`'s
  external transform state): final binary buffer, `none` models failure. -/
  cipherRefRead : XNode → Option Bytes

/-- One binary transform in the chain. -/
inductive Transform where
  | cipher (alg : String) (encrypt : Bool) (key : Bytes)
  | b64encode
  | b64decode
  | membuf
deriving DecidableEq, Repr

/-- Effect of one transform on the complete byte stream (write-all then
flush, or read-to-EOF, behave as one total function per transform; the
mem-buffer sink passes data through while retaining it). -/
def applyTransform (E : Externals) (t : Transform) (data : Bytes) : Bytes :=
  match t with
  | .cipher alg enc key => if enc then E.cipherEnc alg key data else E.cipherDec alg key data
  | .b64encode => E.b64enc data
  | .b64decode => E.b64dec data
  | .membuf => data

/-- Pushing a whole buffer through a transform chain (head to tail) and
flushing; the result is what the terminal mem-buffer sink holds. -/
def runChain (E : Externals) (chain : List Transform) (data : Bytes) : Bytes :=
  match chain with
  | [] => data
  | t :: rest => runChain E rest (applyTransform E t data)

/-! ## EncryptedData driver (xmlSecEncryptedDataNodeRead, lines 1437-1598) -/

/-- Reading of the `EncryptionMethod` step of the walk (lines 1456-1475):
either the first element child names the method (read through the registry),
or the context supplies a default, or the walk fails with `invalidData`
(diagnostic "encryption method not specified").  Returns the algorithm and
the rest of the walk. -/
def stepMethod (E : Externals) (ctx : EncCtx) (cur : List XNode) :
    Except Err (String × List XNode) :=
  match cur with
  | c :: rest =>
    if xmlSecCheckNodeName c "EncryptionMethod" xmlSecEncNs then
      match nodeAttrs c "Algorithm" with
      | some alg => if E.knownAlg alg then .ok (alg, xmlSecGetNextElementNode rest)
                    else .error .xmlsecFailed
      | none => .error .xmlsecFailed
    else
      match ctx.encryptionMethod with
      | some alg => .ok (alg, cur)
      | none => .error .invalidData
  | [] =>
    match ctx.encryptionMethod with
    | some alg => .ok (alg, [])
    | none => .error .invalidData

/-- Reading of the optional `KeyInfo` step of the walk (lines 1487-1491). -/
def stepKeyInfo (cur : List XNode) : Option XNode × List XNode :=
  match cur with
  | c :: rest =>
    if xmlSecCheckNodeName c "KeyInfo" xmlSecDSigNs then
      (some c, xmlSecGetNextElementNode rest)
    else (none, cur)
  | [] => (none, [])

/-- Key resolution (lines 1493-1506): when the caller supplied no key and a
key-manager callback exists, the hints are set from the method's metadata for
the current direction and the callback is invoked with the `KeyInfo` node;
otherwise the caller key and original hints are kept. -/
def resolveKey (E : Externals) (encrypt : Bool) (alg : String) (key0 : Option Key)
    (kiNode : Option XNode) (hints0 : KeyHints) : Option Key × KeyHints :=
  match key0, E.getKey with
  | none, some cb =>
    let h : KeyHints :=
      { keyType := if encrypt then E.encKeyType alg else E.decKeyType alg
        keyUsage := if encrypt then .encrypt else .decrypt
        keyId := E.algKeyId alg }
    (cb kiNode h, h)
  | k, _ => (k, hints0)

/-- Reading of the required `CipherData` step (lines 1534-1542): absence or a
wrong element name is fatal `invalidNode`. -/
def stepCipherData (cur : List XNode) : Except Err (XNode × List XNode) :=
  match cur with
  | c :: rest =>
    if xmlSecCheckNodeName c "CipherData" xmlSecEncNs then
      .ok (c, xmlSecGetNextElementNode rest)
    else .error .invalidNode
  | [] => .error .invalidNode

/-- Successful outcome of the `EncryptedData` walk. -/
structure ReadSuccess where
  resId : Option String
  resType : Option String
  resMime : Option String
  resEnc : Option String
  alg : String
  key : Key
  kiNode : Option XNode
  chain : List Transform
  cipherData : XNode
  newChildren : List XNode

/-- Outcome of the `EncryptedData` walk, together with the key hints after it
(the `KeysMngrCtx` is mutated in place) and the `EncryptedData` children after
any `KeyInfo` rewrite (the only template mutation the walk performs). -/
structure ReadOut where
  status : Except Err ReadSuccess
  hints : KeyHints
  children : List XNode

/-- Translation of `xmlSecEncryptedDataNodeRead`: copies the four attributes,
walks `EncryptionMethod?`, `KeyInfo?`, `CipherData`, skips
`EncryptionProperties` and any trailing elements (the strict check is
commented out in the source), resolves the key, rewrites `KeyInfo` on encrypt
and appends the base64 encoder and the mem-buffer sink on encrypt.  The
cipher transform's direction and key are those set by
`xmlSecBinTransformSetEncrypt` / `xmlSecBinTransformAddKey` before the chain
ever runs. -/
def xmlSecEncryptedDataNodeRead (E : Externals) (ctx : EncCtx) (hints0 : KeyHints)
    (encrypt : Bool) (key0 : Option Key) (encNode : XNode) : ReadOut :=
  match encNode with
  | .text _ => { status := .error .invalidNode, hints := hints0, children := [] }
  | .elem _ _ attrs children =>
    let cur := xmlSecGetNextElementNode children
    match stepMethod E ctx cur with
    | .error e => { status := .error e, hints := hints0, children := children }
    | .ok (alg, cur1) =>
      let (kiNode, cur2) := stepKeyInfo cur1
      let (key?, hints1) := resolveKey E encrypt alg key0 kiNode hints0
      match key? with
      | none => { status := .error .keyNotFound, hints := hints1, children := children }
      | some key =>
        let kiw : Except Err (List XNode) :=
          match kiNode with
          | some kn =>
            if encrypt then
              match E.keyInfoWrite (nodeChildren kn) key.value with
              | none => .error .xmlsecFailed
              | some newCs =>
                .ok (replaceFirstNamed "KeyInfo" xmlSecDSigNs
                  (.elem "KeyInfo" xmlSecDSigNs (nodeAttrs kn) newCs) children)
            else .ok children
          | none => .ok children
        match kiw with
        | .error e => { status := .error e, hints := hints1, children := children }
        | .ok children1 =>
          match stepCipherData cur2 with
          | .error e => { status := .error e, hints := hints1, children := children1 }
          | .ok (cd, _) =>
            let chain :=
              if encrypt then
                [Transform.cipher alg true key.value, Transform.b64encode, Transform.membuf]
              else [Transform.cipher alg false key.value]
            { status := .ok
                { resId := attrs "Id", resType := attrs "Type"
                  resMime := attrs "MimeType", resEnc := attrs "Encoding"
                  alg := alg, key := key, kiNode := kiNode, chain := chain
                  cipherData := cd, newChildren := children1 }
              hints := hints1
              children := children1 }

/-! ## CipherData driver (lines 1600-1782) -/

/-- Translation of `xmlSecCipherDataNodeWrite` (lines 1649-1686): creates a
`CipherValue` when `CipherData` has no element child, overwrites the text of
an existing `CipherValue`, leaves a `CipherReference` untouched, and fails
with `invalidNode` on any unexpected element.  The ciphertext is bracketed by
newlines.  Returns the status together with the (possibly mutated)
`CipherData` node: the source mutates the text content before the trailing
check. -/
def xmlSecCipherDataNodeWrite (cd : XNode) (buf : Bytes) : Except Err Unit × XNode :=
  match cd with
  | .text b => (.error .invalidNode, .text b)
  | .elem nm ns a children =>
    match xmlSecGetNextElementNode children with
    | [] =>
      let cv := .elem "CipherValue" xmlSecEncNs noAttrs [.text (10 :: (buf ++ [10]))]
      (.ok (), .elem nm ns a (children ++ [cv]))
    | c :: rest =>
      if xmlSecCheckNodeName c "CipherValue" xmlSecEncNs then
        let children' := replaceFirstElem (setNodeContent c (10 :: (buf ++ [10]))) children
        match xmlSecGetNextElementNode rest with
        | [] => (.ok (), .elem nm ns a children')
        | _ :: _ => (.error .invalidNode, .elem nm ns a children')
      else if xmlSecCheckNodeName c "CipherReference" xmlSecEncNs then
        match xmlSecGetNextElementNode rest with
        | [] => (.ok (), .elem nm ns a children)
        | _ :: _ => (.error .invalidNode, .elem nm ns a children)
      else (.error .invalidNode, .elem nm ns a children)

/-- Translation of `xmlSecCipherDataNodeRead` (lines 1603-1643) together with
`xmlSecCipherValueNodeRead`: on a `CipherValue` first child, the base64
decoder is prepended to the chain, the mem-buffer sink appended, and the
node's text content pushed through; on a `CipherReference`, the external
pipeline produces the buffer; with no element child the function succeeds
without producing a buffer; any trailing element is `invalidNode`. -/
def xmlSecCipherDataNodeRead (E : Externals) (chain : List Transform) (cd : XNode) :
    Except Err (Option Bytes) :=
  match xmlSecGetNextElementNode (nodeChildren cd) with
  | [] => .ok none
  | c :: rest =>
    if xmlSecCheckNodeName c "CipherValue" xmlSecEncNs then
      let chain' := Transform.b64decode :: (chain ++ [Transform.membuf])
      let buffer := runChain E chain' (xmlNodeGetContent c)
      match xmlSecGetNextElementNode rest with
      | [] => .ok (some buffer)
      | _ :: _ => .error .invalidNode
    else if xmlSecCheckNodeName c "CipherReference" xmlSecEncNs then
      match E.cipherRefRead c with
      | none => .error .xmlsecFailed
      | some b =>
        match xmlSecGetNextElementNode rest with
        | [] => .ok (some b)
        | _ :: _ => .error .invalidNode
    else .error .invalidNode

/-! ## Public operations (xmlSecEncryptMemory, xmlSecEncryptUri,
xmlSecEncryptXmlNode, xmlSecDecrypt) -/

/-- User-visible result record (`xmlSecEncResult`). -/
structure EncResult where
  id : Option String
  type : Option String
  mimeType : Option String
  encoding : Option String
  encryptionMethod : Option String
  key : Option Key
  buffer : Option Bytes
  replaced : Bool
  encrypt : Bool

/-- Splice performed on the host XML tree by an operation. -/
inductive TreeEffect where
  | none
  | encReplacedSrc
  | encReplacedSrcContent
  | decSpliced (nodes : List XNode)

/-- Outcome of one public operation: the status, the `EncryptedData` template
after the operation (reflecting all mutations performed up to an error), the
splice effect, how many times `xmlSecEncResultDestroy` and
`xmlSecEncStateDestroy` ran on the owned result and session, and the final
key hints.  On success the result is handed to the caller (the `result`
out-parameter is non-NULL), so the result itself is not destroyed. -/
structure OpOut where
  status : Except Err EncResult
  tree : XNode
  effect : TreeEffect
  resultFrees : Nat
  stateFrees : Nat
  hints : KeyHints

/-- Replacement of the children of an element node. -/
def withChildren (n : XNode) (cs : List XNode) : XNode :=
  match n with
  | .elem nm ns a _ => .elem nm ns a cs
  | .text b => .text b

/-- The key-install step shared by all four operations (lines 636-640,
733-737, 855-859, 1020-1024): `res->key = xmlSecKeyDuplicate(key)` followed
by `res->key->origin = key->origin` with no NULL check in between; a NULL
duplicate is dereferenced, modelled as the `nullDeref` error. -/
def installCallerKey (E : Externals) (k : Key) : Except Err Key :=
  match E.keyDuplicate k with
  | none => .error .nullDeref
  | some d => .ok { value := d.value, origin := k.origin }

/-- Result record as assembled by a successful walk. -/
def mkEncResult (rs : ReadSuccess) (encrypt : Bool) (key : Option Key) : EncResult :=
  { id := rs.resId, type := rs.resType, mimeType := rs.resMime, encoding := rs.resEnc
    encryptionMethod := some rs.alg, key := key, buffer := none
    replaced := false, encrypt := encrypt }

/-- Translation of `xmlSecEncStateWriteResult` composed with its caller's
error handling: drains the sink into the result buffer, writes the
ciphertext into the `CipherData` node, and on failure destroys the result
and the session inside the helper (lines 1190-1196) — after which the calling
operation destroys both again (e.g. lines 677-685).  Returns the status, the
updated `CipherData`, and the (resultFrees, stateFrees) pair contributed by
the helper itself. -/
def xmlSecEncStateWriteResult (rs : ReadSuccess) (ct : Bytes) :
    Except Err Unit × XNode × Nat × Nat :=
  match xmlSecCipherDataNodeWrite rs.cipherData ct with
  | (.ok _, cd') => (.ok (), cd', 0, 0)
  | (.error e, cd') => (.error e, cd', 1, 1)

/-- Shared tail of the three encrypt operations after the plaintext buffer is
in hand: push through the chain, write the ciphertext back, and account for
the destroys of the caller's error branch. -/
def encryptTail (E : Externals) (hints1 : KeyHints) (encNode : XNode)
    (ro : ReadOut) (rs : ReadSuccess) (key1 : Option Key) (buf : Bytes) : OpOut :=
  let ct := runChain E rs.chain buf
  match xmlSecEncStateWriteResult rs ct with
  | (.ok _, cd', _, _) =>
    let tree' := withChildren encNode (replaceFirstNamed "CipherData" xmlSecEncNs cd' ro.children)
    { status := .ok { mkEncResult rs true key1 with buffer := some ct }
      tree := tree', effect := .none, resultFrees := 0, stateFrees := 1, hints := hints1 }
  | (.error e, cd', rf, sf) =>
    let tree' := withChildren encNode (replaceFirstNamed "CipherData" xmlSecEncNs cd' ro.children)
    { status := .error e, tree := tree', effect := .none
      resultFrees := rf + 1, stateFrees := sf + 1, hints := hints1 }

/-- Core of `xmlSecEncryptMemory` after the key-install step. -/
def xmlSecEncryptMemoryGo (E : Externals) (ctx : EncCtx) (hints0 : KeyHints)
    (key0 : Option Key) (encNode : XNode) (buf : Bytes) : OpOut :=
  let ro := xmlSecEncryptedDataNodeRead E ctx hints0 true key0 encNode
  match ro.status with
  | .error e =>
    { status := .error e, tree := withChildren encNode ro.children, effect := .none
      resultFrees := 1, stateFrees := 1, hints := ro.hints }
  | .ok rs => encryptTail E ro.hints encNode ro rs (some rs.key) buf

/-- Translation of `xmlSecEncryptMemory` (lines 617-695): create the result,
install the caller key, register Ids (no tree change), build the session
(which parses the template and the chain), push the plaintext, flush, and
write the ciphertext back as the `CipherValue` text. -/
def xmlSecEncryptMemory (E : Externals) (ctx : EncCtx) (hints0 : KeyHints)
    (key? : Option Key) (encNode : XNode) (buf : Bytes) : OpOut :=
  match key? with
  | some k =>
    match installCallerKey E k with
    | .error _ =>
      { status := .error .nullDeref, tree := encNode, effect := .none
        resultFrees := 0, stateFrees := 0, hints := hints0 }
    | .ok kd => xmlSecEncryptMemoryGo E ctx hints0 (some kd) encNode buf
  | none => xmlSecEncryptMemoryGo E ctx hints0 none encNode buf

/-- Core of `xmlSecEncryptUri` after the key-install step: the URI input
transform is prepended and the chain driven in pull mode until EOF, which
feeds the dereferenced URI content through the same chain. -/
def xmlSecEncryptUriGo (E : Externals) (ctx : EncCtx) (hints0 : KeyHints)
    (key0 : Option Key) (encNode : XNode) (uri : String) : OpOut :=
  let ro := xmlSecEncryptedDataNodeRead E ctx hints0 true key0 encNode
  match ro.status with
  | .error e =>
    { status := .error e, tree := withChildren encNode ro.children, effect := .none
      resultFrees := 1, stateFrees := 1, hints := ro.hints }
  | .ok rs =>
    match E.uriContent uri with
    | none =>
      { status := .error .xmlsecFailed, tree := withChildren encNode ro.children
        effect := .none, resultFrees := 1, stateFrees := 1, hints := ro.hints }
    | some data => encryptTail E ro.hints encNode ro rs (some rs.key) data

/-- Translation of `xmlSecEncryptUri` (lines 712-818). -/
def xmlSecEncryptUri (E : Externals) (ctx : EncCtx) (hints0 : KeyHints)
    (key? : Option Key) (encNode : XNode) (uri : String) : OpOut :=
  match key? with
  | some k =>
    match installCallerKey E k with
    | .error _ =>
      { status := .error .nullDeref, tree := encNode, effect := .none
        resultFrees := 0, stateFrees := 0, hints := hints0 }
    | .ok kd => xmlSecEncryptUriGo E ctx hints0 (some kd) encNode uri
  | none => xmlSecEncryptUriGo E ctx hints0 none encNode uri

/-- Serialization of the children of the source node in document order
(`Type = #Content` on encrypt, lines 895-902). -/
def dumpNodeChildren (E : Externals) (src : XNode) : Bytes :=
  (nodeChildren src).foldr (fun c acc => E.nodeDump c ++ acc) []

/-- Core of `xmlSecEncryptXmlNode` after the key-install step: serialize the
source according to `Type` (lines 889-911), run the common encrypt tail, and
splice the `EncryptedData` node over the source (lines 946-972). -/
def xmlSecEncryptXmlNodeGo (E : Externals) (ctx : EncCtx) (hints0 : KeyHints)
    (key0 : Option Key) (encNode : XNode) (src : XNode) : OpOut :=
  let ro := xmlSecEncryptedDataNodeRead E ctx hints0 true key0 encNode
  match ro.status with
  | .error e =>
    { status := .error e, tree := withChildren encNode ro.children, effect := .none
      resultFrees := 1, stateFrees := 1, hints := ro.hints }
  | .ok rs =>
    let bufE : Except Err Bytes :=
      if ctx.ignoreType then .ok (E.nodeDump src)
      else
        match rs.resType with
        | none => .ok (E.nodeDump src)
        | some t =>
          if t = xmlSecEncTypeElement then .ok (E.nodeDump src)
          else if t = xmlSecEncTypeContent then .ok (dumpNodeChildren E src)
          else .error .invalidType
    match bufE with
    | .error e =>
      { status := .error e, tree := withChildren encNode ro.children, effect := .none
        resultFrees := 1, stateFrees := 1, hints := ro.hints }
    | .ok buf =>
      let out := encryptTail E ro.hints encNode ro rs (some rs.key) buf
      match out.status with
      | .error _ => out
      | .ok res =>
        if ctx.ignoreType then out
        else
          match rs.resType with
          | none => out
          | some t =>
            if t = xmlSecEncTypeElement then
              { out with status := .ok { res with replaced := true }, effect := .encReplacedSrc }
            else if t = xmlSecEncTypeContent then
              { out with
                status := .ok { res with replaced := true }
                effect := .encReplacedSrcContent }
            else out

/-- Translation of `xmlSecEncryptXmlNode` (lines 835-982). -/
def xmlSecEncryptXmlNode (E : Externals) (ctx : EncCtx) (hints0 : KeyHints)
    (key? : Option Key) (encNode : XNode) (src : XNode) : OpOut :=
  match key? with
  | some k =>
    match installCallerKey E k with
    | .error _ =>
      { status := .error .nullDeref, tree := encNode, effect := .none
        resultFrees := 0, stateFrees := 0, hints := hints0 }
    | .ok kd => xmlSecEncryptXmlNodeGo E ctx hints0 (some kd) encNode src
  | none => xmlSecEncryptXmlNodeGo E ctx hints0 none encNode src

/-- Core of `xmlSecDecrypt` after the key-install step: build the session in
decrypt direction, read the cipher data, and splice the decrypted XML over
the `EncryptedData` node when `Type` demands it (lines 1057-1088); an
unknown `Type` is silently ignored. -/
def xmlSecDecryptGo (E : Externals) (ctx : EncCtx) (hints0 : KeyHints)
    (key0 : Option Key) (encNode : XNode) : OpOut :=
  let ro := xmlSecEncryptedDataNodeRead E ctx hints0 false key0 encNode
  match ro.status with
  | .error e =>
    { status := .error e, tree := withChildren encNode ro.children, effect := .none
      resultFrees := 1, stateFrees := 1, hints := ro.hints }
  | .ok rs =>
    match xmlSecCipherDataNodeRead E rs.chain rs.cipherData with
    | .error e =>
      { status := .error e, tree := withChildren encNode ro.children, effect := .none
        resultFrees := 1, stateFrees := 1, hints := ro.hints }
    | .ok none =>
      { status := .error .xmlsecFailed, tree := withChildren encNode ro.children
        effect := .none, resultFrees := 1, stateFrees := 1, hints := ro.hints }
    | .ok (some buffer) =>
      let res := { mkEncResult rs false (some rs.key) with buffer := some buffer }
      let tree1 := withChildren encNode ro.children
      if ctx.ignoreType then
        { status := .ok res, tree := tree1, effect := .none
          resultFrees := 0, stateFrees := 1, hints := ro.hints }
      else
        match rs.resType with
        | none =>
          { status := .ok res, tree := tree1, effect := .none
            resultFrees := 0, stateFrees := 1, hints := ro.hints }
        | some t =>
          if t = xmlSecEncTypeElement ∨ t = xmlSecEncTypeContent then
            match E.parseNodeBuffer buffer with
            | none =>
              { status := .error .xmlsecFailed, tree := tree1, effect := .none
                resultFrees := 1, stateFrees := 1, hints := ro.hints }
            | some nodes =>
              { status := .ok { res with replaced := true }, tree := tree1
                effect := .decSpliced nodes, resultFrees := 0, stateFrees := 1
                hints := ro.hints }
          else
            { status := .ok res, tree := tree1, effect := .none
              resultFrees := 0, stateFrees := 1, hints := ro.hints }

/-- Translation of `xmlSecDecrypt` (lines 1002-1098). -/
def xmlSecDecrypt (E : Externals) (ctx : EncCtx) (hints0 : KeyHints)
    (key? : Option Key) (encNode : XNode) : OpOut :=
  match key? with
  | some k =>
    match installCallerKey E k with
    | .error _ =>
      { status := .error .nullDeref, tree := encNode, effect := .none
        resultFrees := 0, stateFrees := 0, hints := hints0 }
    | .ok kd => xmlSecDecryptGo E ctx hints0 (some kd) encNode
  | none => xmlSecDecryptGo E ctx hints0 none encNode

/-! ## Well-formed templates

A well-formed `EncryptedData` template, per the wire grammar of the spec:
optional `Id`/`Type`/`MimeType`/`Encoding` attributes, then
`EncryptionMethod?`, `KeyInfo?`, `CipherData` (empty or holding one
`CipherValue`), `EncryptionProperties?`. -/

/-- Shape of a well-formed `EncryptedData` template. -/
structure Shape where
  idA : Option String
  typeA : Option String
  mimeA : Option String
  encA : Option String
  methodAlg : Option String
  keyInfo : Option (List XNode)
  cipherInit : Option Bytes
  props : Bool

/-- Attribute map of the template described by a shape. -/
def mkAttrs (s : Shape) : Attrs := fun q =>
  if q = "Id" then s.idA
  else if q = "Type" then s.typeA
  else if q = "MimeType" then s.mimeA
  else if q = "Encoding" then s.encA
  else none

/-- Attribute map of an `EncryptionMethod` node carrying one algorithm. -/
def algAttr (a : String) : Attrs := fun q =>
  if q = "Algorithm" then some a else none

/-- Optional `EncryptionMethod` child. -/
def mkMethodL : Option String → List XNode
  | none => []
  | some a => [.elem "EncryptionMethod" xmlSecEncNs (algAttr a) []]

/-- Optional `KeyInfo` child with the given children. -/
def mkKIL : Option (List XNode) → List XNode
  | none => []
  | some cs => [.elem "KeyInfo" xmlSecDSigNs noAttrs cs]

/-- Children of a well-formed `CipherData`: empty, or one `CipherValue`
whose text is the given bytes. -/
def cvL : Option Bytes → List XNode
  | none => []
  | some b => [.elem "CipherValue" xmlSecEncNs noAttrs [.text b]]

/-- The `CipherData` child: empty, or holding a `CipherValue` whose text is
the given bytes. -/
def mkCD (c : Option Bytes) : XNode :=
  .elem "CipherData" xmlSecEncNs noAttrs (cvL c)

/-- Optional `EncryptionProperties` child. -/
def mkPropsL : Bool → List XNode
  | false => []
  | true => [.elem "EncryptionProperties" xmlSecEncNs noAttrs []]

/-- Children of the template described by a shape, with the `KeyInfo`
children generalized (used to state the walk's `KeyInfo` rewrite). -/
def mkChildrenKI (s : Shape) (ki : Option (List XNode)) : List XNode :=
  mkMethodL s.methodAlg ++ mkKIL ki ++ [mkCD s.cipherInit] ++ mkPropsL s.props

/-- The template described by a shape. -/
def mkTemplate (s : Shape) : XNode :=
  .elem "EncryptedData" xmlSecEncNs (mkAttrs s) (mkChildrenKI s s.keyInfo)

/-- The `KeyInfo` node of a shape, as the walk sees it. -/
def kiNodeOf : Option (List XNode) → Option XNode
  | none => none
  | some cs => some (.elem "KeyInfo" xmlSecDSigNs noAttrs cs)

/-- Resolution of the encryption method for a template: either the template
names a registered algorithm, or it has no `EncryptionMethod` and the context
supplies the default. -/
def MethodOk (E : Externals) (ctx : EncCtx) (s : Shape) (alg : String) : Prop :=
  (s.methodAlg = some alg ∧ E.knownAlg alg = true) ∨
  (s.methodAlg = none ∧ ctx.encryptionMethod = some alg)

/-- Outcome of the `KeyInfo` rewrite step for a shape: `none` is failure of
the external writer; otherwise the resulting `KeyInfo` children. -/
def kiRewrite (E : Externals) (enc : Bool) (k : Key) :
    Option (List XNode) → Option (Option (List XNode))
  | some cs =>
    if enc then
      match E.keyInfoWrite cs k.value with
      | none => none
      | some cs' => some (some cs')
    else some (some cs)
  | none => some none

/-- Characterization of `xmlSecEncryptedDataNodeRead` on a well-formed
template when the caller supplies the key: the walk succeeds, the four
attributes are copied, the chain is the cipher transform in the session's
direction followed (on encrypt) by the base64 encoder and the mem-buffer
sink, the located `CipherData` is the template's, and the only template
mutation is the `KeyInfo` rewrite. -/
theorem read_mkTemplate (E : Externals) (ctx : EncCtx) (h0 : KeyHints) (enc : Bool)
    (k : Key) (s : Shape) (alg : String) (ki' : Option (List XNode))
    (hm : MethodOk E ctx s alg)
    (hkw : kiRewrite E enc k s.keyInfo = some ki') :
    xmlSecEncryptedDataNodeRead E ctx h0 enc (some k) (mkTemplate s) =
      { status := .ok
          { resId := s.idA, resType := s.typeA, resMime := s.mimeA, resEnc := s.encA
            alg := alg, key := k, kiNode := kiNodeOf s.keyInfo
            chain :=
              if enc then
                [Transform.cipher alg true k.value, Transform.b64encode, Transform.membuf]
              else [Transform.cipher alg false k.value]
            cipherData := mkCD s.cipherInit
            newChildren := mkChildrenKI s ki' }
        hints := h0
        children := mkChildrenKI s ki' } := by
  obtain ⟨i, ty, mi, en, ma, ki, ci, pr⟩ := s
  cases ki with
  | none =>
    have hk : ki' = none := by
      simp only [kiRewrite, Option.some.injEq] at hkw
      exact hkw.symm
    subst hk
    cases ma <;> cases enc <;> rcases hm with ⟨hm1, hm2⟩ | ⟨hm1, hm2⟩ <;>
      simp_all [xmlSecEncryptedDataNodeRead, mkTemplate, mkChildrenKI, mkMethodL, mkKIL,
        mkCD, cvL, mkPropsL, mkAttrs, algAttr, kiNodeOf, stepMethod, stepKeyInfo,
        stepCipherData, resolveKey, xmlSecGetNextElementNode, xmlSecCheckNodeName,
        nodeAttrs, nodeChildren, noAttrs, replaceFirstNamed, xmlSecEncNs, xmlSecDSigNs]
  | some cs =>
    cases enc with
    | false =>
      have hk : ki' = some cs := by
        simp only [kiRewrite, if_neg, Bool.false_eq_true, not_false_eq_true, if_false,
          Option.some.injEq] at hkw
        exact hkw.symm
      subst hk
      cases ma <;> rcases hm with ⟨hm1, hm2⟩ | ⟨hm1, hm2⟩ <;>
        simp_all [xmlSecEncryptedDataNodeRead, mkTemplate, mkChildrenKI, mkMethodL, mkKIL,
          mkCD, cvL, mkPropsL, mkAttrs, algAttr, kiNodeOf, stepMethod, stepKeyInfo,
          stepCipherData, resolveKey, xmlSecGetNextElementNode, xmlSecCheckNodeName,
          nodeAttrs, nodeChildren, noAttrs, replaceFirstNamed, xmlSecEncNs, xmlSecDSigNs]
    | true =>
      rcases hw : E.keyInfoWrite cs k.value with _ | cs'
      · simp [kiRewrite, hw] at hkw
      · have hk : ki' = some cs' := by
          simp only [kiRewrite, if_pos, hw, Option.some.injEq] at hkw
          exact hkw.symm
        subst hk
        cases ma <;> rcases hm with ⟨hm1, hm2⟩ | ⟨hm1, hm2⟩ <;>
          simp_all [xmlSecEncryptedDataNodeRead, mkTemplate, mkChildrenKI, mkMethodL, mkKIL,
            mkCD, cvL, mkPropsL, mkAttrs, algAttr, kiNodeOf, stepMethod, stepKeyInfo,
            stepCipherData, resolveKey, xmlSecGetNextElementNode, xmlSecCheckNodeName,
            nodeAttrs, nodeChildren, noAttrs, replaceFirstNamed, xmlSecEncNs, xmlSecDSigNs]

/-- Writing back into a well-formed `CipherData` (empty or with one
`CipherValue`) always succeeds and leaves a single `CipherValue` whose text is
the ciphertext bracketed by newlines. -/
theorem cipherDataNodeWrite_mkCD (ci : Option Bytes) (ct : Bytes) :
    xmlSecCipherDataNodeWrite (mkCD ci) ct = (.ok (), mkCD (some (10 :: (ct ++ [10])))) := by
  cases ci <;>
    simp [xmlSecCipherDataNodeWrite, mkCD, cvL, xmlSecGetNextElementNode,
      xmlSecCheckNodeName, setNodeContent, replaceFirstElem, noAttrs]

/-- Replacement of the first `CipherData` child in a shape's children hits
exactly the shape's `CipherData` node. -/
theorem replaceFirstNamed_mkChildren (s : Shape) (ki : Option (List XNode)) (x : XNode) :
    replaceFirstNamed "CipherData" xmlSecEncNs x (mkChildrenKI s ki) =
      mkMethodL s.methodAlg ++ mkKIL ki ++ [x] ++ mkPropsL s.props := by
  cases h : s.methodAlg <;> cases ki <;>
    simp [mkChildrenKI, mkMethodL, mkKIL, mkCD, replaceFirstNamed, xmlSecCheckNodeName,
      xmlSecEncNs, xmlSecDSigNs, h]

/-- Reading a `CipherData` holding one `CipherValue` prepends the base64
decoder, appends the sink, and pushes the node's text content through. -/
theorem cipherDataNodeRead_mkCD (E : Externals) (chain : List Transform) (b : Bytes) :
    xmlSecCipherDataNodeRead E chain (mkCD (some b)) =
      .ok (some (runChain E (Transform.b64decode :: (chain ++ [Transform.membuf])) b)) := by
  simp [xmlSecCipherDataNodeRead, mkCD, cvL, nodeChildren, xmlSecGetNextElementNode,
    xmlSecCheckNodeName, xmlNodeGetContent, xmlNodeGetContent.goList]

/-- Every shape has a `KeyInfo` rewrite outcome when the external writer
succeeds. -/
theorem kiRewrite_total (E : Externals) (enc : Bool) (k : Key) (ki : Option (List XNode))
    (hki : ∀ cs, (E.keyInfoWrite cs k.value).isSome) :
    ∃ ki', kiRewrite E enc k ki = some ki' := by
  cases ki with
  | none => exact ⟨none, rfl⟩
  | some cs =>
    cases enc with
    | false => exact ⟨some cs, rfl⟩
    | true =>
      rcases hw : E.keyInfoWrite cs k.value with _ | cs'
      · have := hki cs
        rw [hw] at this
        simp at this
      · exact ⟨some cs', by simp [kiRewrite, hw]⟩

/-- In decrypt direction the `KeyInfo` rewrite is the identity. -/
theorem kiRewrite_false (E : Externals) (k : Key) (ki : Option (List XNode)) :
    kiRewrite E false k ki = some ki := by
  cases ki <;> rfl

/-- Round trip through the public operations: encrypt a plaintext buffer into
a template, then decrypt the resulting document; the decrypt result's
plaintext buffer, or `none` on any failure. -/
def roundTripMemory (E : Externals) (ctx : EncCtx) (h0 : KeyHints) (k : Key)
    (T : XNode) (pt : Bytes) : Option Bytes :=
  let o1 := xmlSecEncryptMemory E ctx h0 (some k) T pt
  match o1.status with
  | .error _ => none
  | .ok _ =>
    match (xmlSecDecrypt E ctx h0 (some k) o1.tree).status with
    | .error _ => none
    | .ok r => r.buffer

/-- C1.  For every well-formed `EncryptedData` template, valid algorithm and
key, and plaintext byte string, decrypting the document produced by
encrypting that plaintext under the template yields the original plaintext
byte for byte, for `Type` in `#Element`, `#Content` or unset — assuming the
registry's cipher and base64 transforms are mutually inverse in their two
directions (the base64 decoder also absorbing the newline framing of the
stored `CipherValue` text), key duplication faithful, and the external
`KeyInfo` writer and XML parser succeeding. -/
theorem claim_C1_roundtrip (E : Externals) (ctx : EncCtx) (h0 : KeyHints) (k : Key)
    (s : Shape) (alg : String) (pt : Bytes)
    (hm : MethodOk E ctx s alg)
    (hdup : E.keyDuplicate k = some k)
    (hcipher : ∀ x, E.cipherDec alg k.value (E.cipherEnc alg k.value x) = x)
    (hb64 : ∀ x, E.b64dec (10 :: (E.b64enc x ++ [10])) = x)
    (hki : ∀ cs, (E.keyInfoWrite cs k.value).isSome)
    (hparse : ∀ b, (E.parseNodeBuffer b).isSome)
    (htype : s.typeA = none ∨ s.typeA = some xmlSecEncTypeElement ∨
      s.typeA = some xmlSecEncTypeContent) :
    roundTripMemory E ctx h0 k (mkTemplate s) pt = some pt := by
  obtain ⟨ki', hkw⟩ := kiRewrite_total E true k s.keyInfo hki
  have hinst : installCallerKey E k = .ok k := by
    simp [installCallerKey, hdup]
  have hread := read_mkTemplate E ctx h0 true k s alg ki' hm hkw
  have hct : runChain E
      [Transform.cipher alg true k.value, Transform.b64encode, Transform.membuf] pt =
      E.b64enc (E.cipherEnc alg k.value pt) := by
    simp [runChain, applyTransform]
  set ct := E.b64enc (E.cipherEnc alg k.value pt) with hctdef
  set s' : Shape := ⟨s.idA, s.typeA, s.mimeA, s.encA, s.methodAlg, ki',
    some (10 :: (ct ++ [10])), s.props⟩ with hs'
  have henc : xmlSecEncryptMemory E ctx h0 (some k) (mkTemplate s) pt =
      { status := .ok
          { id := s.idA
            type := s.typeA
            mimeType := s.mimeA
            encoding := s.encA
            encryptionMethod := some alg
            key := some k
            buffer := some ct
            replaced := false
            encrypt := true }
        tree := mkTemplate s'
        effect := .none
        resultFrees := 0
        stateFrees := 1
        hints := h0 } := by
    simp only [xmlSecEncryptMemory, hinst, xmlSecEncryptMemoryGo, hread, encryptTail,
      xmlSecEncStateWriteResult, hct]
    rw [cipherDataNodeWrite_mkCD]
    simp only [replaceFirstNamed_mkChildren, mkTemplate, withChildren, mkEncResult]
    rfl
  have hm' : MethodOk E ctx s' alg := by
    rcases hm with ⟨h1, h2⟩ | ⟨h1, h2⟩
    · exact Or.inl ⟨h1, h2⟩
    · exact Or.inr ⟨h1, h2⟩
  have hread2 := read_mkTemplate E ctx h0 false k s' alg ki'
    hm' (kiRewrite_false E k ki')
  have hbuf : runChain E
      [Transform.b64decode, Transform.cipher alg false k.value, Transform.membuf]
      (10 :: (ct ++ [10])) = pt := by
    simp only [runChain, applyTransform, List.append_eq, List.nil_append]
    rw [hctdef, hb64, if_neg (by simp), hcipher]
  obtain ⟨nds, hnds⟩ := Option.isSome_iff_exists.mp (hparse pt)
  simp only [roundTripMemory]
  rw [henc]
  simp only [xmlSecDecrypt, hinst, xmlSecDecryptGo, hread2, cipherDataNodeRead_mkCD, hbuf]
  by_cases hig : ctx.ignoreType
  · simp [hig, mkEncResult, hbuf]
  · rcases htype with h | h | h <;>
      simp_all [hig, mkEncResult, hnds, hbuf]

/-! ## Concrete fixtures for witnesses -/

/-- Concrete externals: identity cipher, identity base64 encoder whose
decoder strips the newline framing, faithful key duplication, no key-manager
callback, identity `KeyInfo` writer, trivial parser and serializer. -/
def testExternals : Externals :=
  { knownAlg := fun _ => true
    encKeyType := fun _ => 1
    decKeyType := fun _ => 2
    algKeyId := fun _ => 7
    cipherEnc := fun _ _ d => d
    cipherDec := fun _ _ d => d
    b64enc := fun d => d
    b64dec := fun d => (d.drop 1).dropLast
    keyDuplicate := fun j => some j
    getKey := none
    keyInfoWrite := fun cs _ => some cs
    parseNodeBuffer := fun _ => some []
    nodeDump := fun _ => [65]
    uriContent := fun _ => some [66]
    cipherRefRead := fun _ => some [67] }

/-- Context with no default method and splicing enabled. -/
def ctx0 : EncCtx := { encryptionMethod := none, ignoreType := false }

/-- Initial key hints. -/
def hints0 : KeyHints := { keyType := 0, keyUsage := .unknown, keyId := 0 }

/-- Concrete key. -/
def key0 : Key := { value := [5], origin := 3 }

/-- Minimal well-formed template shape: `EncryptionMethod` for algorithm
"aes", no `KeyInfo`, empty `CipherData`, no properties, no attributes. -/
def shape0 : Shape :=
  { idA := none, typeA := none, mimeA := none, encA := none
    methodAlg := some "aes", keyInfo := none, cipherInit := none, props := false }

/-- Witness for C1: the newline-absorbing base64 inverse holds for the
concrete codec, and the round trip restores the plaintext on a concrete
template and buffer. -/
theorem claim_C1_roundtrip_witness :
    (∀ x, testExternals.b64dec (10 :: (testExternals.b64enc x ++ [10])) = x) ∧
    roundTripMemory testExternals ctx0 hints0 key0 (mkTemplate shape0) [1, 2, 3] =
      some [1, 2, 3] := by
  have hb : ∀ x : Bytes, testExternals.b64dec (10 :: (testExternals.b64enc x ++ [10])) = x := by
    intro x
    show ((10 :: (x ++ [10])).drop 1).dropLast = x
    simp
  refine ⟨hb, ?_⟩
  exact claim_C1_roundtrip testExternals ctx0 hints0 key0 shape0 "aes" [1, 2, 3]
    (Or.inl ⟨rfl, rfl⟩) rfl (fun _ => rfl) hb (fun _ => rfl) (fun _ => rfl) (Or.inl rfl)

/-- C2 (amended).  On an `EncryptedData` whose `Type` is a URI other than
`#Element` and `#Content`: `decrypt` succeeds (when the cipher data is
readable), performs no splice, and the Result preserves the `Type` value
verbatim; `encrypt_xml_node`, however, fails with `InvalidType` when
`ctx.ignoreType` is unset, and only with `ctx.ignoreType` set does it succeed
without splicing while preserving `Type`. -/
theorem claim_C2_unknownType (E : Externals) (ctx : EncCtx) (h0 : KeyHints) (k d : Key)
    (s : Shape) (alg : String) (t : String) (c : Bytes) (src : XNode)
    (hm : MethodOk E ctx s alg)
    (ht : s.typeA = some t)
    (hte : t ≠ xmlSecEncTypeElement)
    (htc : t ≠ xmlSecEncTypeContent)
    (hci : s.cipherInit = some c)
    (hdup : E.keyDuplicate k = some d)
    (hki : ∀ cs b, (E.keyInfoWrite cs b).isSome) :
    ((xmlSecDecrypt E ctx h0 (some k) (mkTemplate s)).effect = TreeEffect.none ∧
     ∃ r, (xmlSecDecrypt E ctx h0 (some k) (mkTemplate s)).status = .ok r ∧
       r.type = some t ∧ r.replaced = false) ∧
    (ctx.ignoreType = false →
      (xmlSecEncryptXmlNode E ctx h0 (some k) (mkTemplate s) src).status =
        .error .invalidType ∧
      (xmlSecEncryptXmlNode E ctx h0 (some k) (mkTemplate s) src).effect =
        TreeEffect.none) ∧
    (ctx.ignoreType = true →
      (xmlSecEncryptXmlNode E ctx h0 (some k) (mkTemplate s) src).effect =
        TreeEffect.none ∧
      ∃ r, (xmlSecEncryptXmlNode E ctx h0 (some k) (mkTemplate s) src).status = .ok r ∧
        r.type = some t ∧ r.replaced = false) := by
  have hinst : installCallerKey E k = .ok { value := d.value, origin := k.origin } := by
    simp [installCallerKey, hdup]
  have hreadDec := read_mkTemplate E ctx h0 false { value := d.value, origin := k.origin }
    s alg s.keyInfo hm (kiRewrite_false E _ s.keyInfo)
  obtain ⟨ki', hkw⟩ := kiRewrite_total E true { value := d.value, origin := k.origin }
    s.keyInfo (fun cs => hki cs d.value)
  have hreadEnc := read_mkTemplate E ctx h0 true { value := d.value, origin := k.origin }
    s alg ki' hm hkw
  refine ⟨?_, ?_, ?_⟩
  · simp only [xmlSecDecrypt, hinst, xmlSecDecryptGo, hreadDec, hci, cipherDataNodeRead_mkCD]
    by_cases hig : ctx.ignoreType <;>
      simp [hig, ht, hte, htc, mkEncResult]
  · intro hig
    simp only [xmlSecEncryptXmlNode, hinst, xmlSecEncryptXmlNodeGo, hreadEnc]
    simp [hig, ht, hte, htc]
  · intro hig
    simp only [xmlSecEncryptXmlNode, hinst, xmlSecEncryptXmlNodeGo, hreadEnc, hig,
      if_true, encryptTail, xmlSecEncStateWriteResult, hci]
    rw [cipherDataNodeWrite_mkCD]
    simp [hig, ht, hte, htc, mkEncResult]

/-- Template with an unrecognized `Type` URI and a readable `CipherValue`. -/
def shapeUnknown : Shape :=
  { idA := none, typeA := some "urn:example:other", mimeA := none, encA := none
    methodAlg := some "aes", keyInfo := none, cipherInit := some [7], props := false }

/-- Source node for XML-node encryption tests. -/
def src0 : XNode := .elem "Data" "" noAttrs []

/-- Counterexample for C2 as stated: with `Type` set to an unrecognized URI,
`encrypt_xml_node` does not succeed — it fails with `InvalidType`. -/
theorem claim_C2_counterexample :
    (xmlSecEncryptXmlNode testExternals ctx0 hints0 (some key0)
      (mkTemplate shapeUnknown) src0).status = .error .invalidType := by
  rfl

/-- Witness for C2 (amended), decrypt half, at a concrete template: no splice
and the `Type` preserved verbatim. -/
theorem claim_C2_unknownType_witness :
    (xmlSecDecrypt testExternals ctx0 hints0 (some key0)
      (mkTemplate shapeUnknown)).effect = TreeEffect.none ∧
    ∃ r, (xmlSecDecrypt testExternals ctx0 hints0 (some key0)
        (mkTemplate shapeUnknown)).status = .ok r ∧
      r.type = some "urn:example:other" ∧ r.replaced = false :=
  (claim_C2_unknownType testExternals ctx0 hints0 key0 key0 shapeUnknown "aes"
    "urn:example:other" [7] src0 (Or.inl ⟨rfl, rfl⟩) rfl (by decide) (by decide)
    rfl rfl (fun _ _ => rfl)).1

/-- The `EncryptedData` walk fails with `invalidData` and performs no
mutation when the template has no `EncryptionMethod` and the context has no
default method. -/
theorem read_noMethod (E : Externals) (ctx : EncCtx) (h0 : KeyHints) (enc : Bool)
    (key0 : Option Key) (s : Shape)
    (hma : s.methodAlg = none) (hcm : ctx.encryptionMethod = none) :
    xmlSecEncryptedDataNodeRead E ctx h0 enc key0 (mkTemplate s) =
      { status := .error .invalidData, hints := h0, children := mkChildrenKI s s.keyInfo } := by
  obtain ⟨i, ty, mi, en, ma, ki, ci, pr⟩ := s
  simp only at hma
  subst hma
  cases ki <;>
    simp [xmlSecEncryptedDataNodeRead, mkTemplate, mkChildrenKI, mkMethodL, mkKIL,
      mkCD, cvL, mkPropsL, stepMethod, xmlSecGetNextElementNode, xmlSecCheckNodeName,
      xmlSecEncNs, xmlSecDSigNs, hcm]

/-- C3.  When the template has no `EncryptionMethod` child and the context's
default `encryptionMethod` is unset, `encrypt_memory` fails with the
`InvalidData` kind (diagnostic "encryption method not specified") and the
template's node tree is left unchanged. -/
theorem claim_C3_missingMethod (E : Externals) (ctx : EncCtx) (h0 : KeyHints)
    (key? : Option Key) (s : Shape) (buf : Bytes)
    (hma : s.methodAlg = none) (hcm : ctx.encryptionMethod = none)
    (hk : ∀ k, key? = some k → (E.keyDuplicate k).isSome) :
    (xmlSecEncryptMemory E ctx h0 key? (mkTemplate s) buf).status = .error .invalidData ∧
    (xmlSecEncryptMemory E ctx h0 key? (mkTemplate s) buf).tree = mkTemplate s := by
  have hgo : ∀ k0, xmlSecEncryptMemoryGo E ctx h0 k0 (mkTemplate s) buf =
      { status := .error .invalidData, tree := mkTemplate s, effect := .none
        resultFrees := 1, stateFrees := 1, hints := h0 } := by
    intro k0
    simp only [xmlSecEncryptMemoryGo, read_noMethod E ctx h0 true k0 s hma hcm]
    rfl
  cases key? with
  | none => simp [xmlSecEncryptMemory, hgo]
  | some k =>
    obtain ⟨d, hd⟩ := Option.isSome_iff_exists.mp (hk k rfl)
    simp [xmlSecEncryptMemory, installCallerKey, hd, hgo]

/-- Witness for C3: the concrete empty-method template under a context
without a default fails with `InvalidData` and stays untouched. -/
theorem claim_C3_missingMethod_witness :
    ((xmlSecEncryptMemory testExternals ctx0 hints0 (some key0)
        (mkTemplate { shape0 with methodAlg := none }) [1]).status = .error .invalidData ∧
     (xmlSecEncryptMemory testExternals ctx0 hints0 (some key0)
        (mkTemplate { shape0 with methodAlg := none }) [1]).tree =
       mkTemplate { shape0 with methodAlg := none }) :=
  claim_C3_missingMethod testExternals ctx0 hints0 (some key0)
    { shape0 with methodAlg := none } [1] rfl rfl (fun _ h => by cases h; rfl)

set_option maxHeartbeats 2000000 in
/-- C4.  In every operation where the caller supplied no key and the
key-manager callback exists, the driver (reaching key resolution with the
method in hand) first sets `keyType` to the method's required key type for
the current direction, `keyUsage` to encrypt or decrypt accordingly, and
`keyId` to the method's required key id on the `KeysMngrCtx`; it then invokes
the callback with the `KeyInfo` node (possibly absent) and those hints: the
resolved key is exactly the callback's answer, and if the callback returns no
key the walk fails with `KeyNotFound`. -/
theorem claim_C4_keyResolution (E : Externals) (ctx : EncCtx) (h0 : KeyHints) (enc : Bool)
    (s : Shape) (alg : String)
    (cb : Option XNode → KeyHints → Option Key)
    (hm : MethodOk E ctx s alg)
    (hcb : E.getKey = some cb) :
    (xmlSecEncryptedDataNodeRead E ctx h0 enc none (mkTemplate s)).hints =
      { keyType := if enc then E.encKeyType alg else E.decKeyType alg
        keyUsage := if enc then .encrypt else .decrypt
        keyId := E.algKeyId alg } ∧
    (cb (kiNodeOf s.keyInfo)
        { keyType := if enc then E.encKeyType alg else E.decKeyType alg
          keyUsage := if enc then .encrypt else .decrypt
          keyId := E.algKeyId alg } = none →
      (xmlSecEncryptedDataNodeRead E ctx h0 enc none (mkTemplate s)).status =
        .error .keyNotFound) ∧
    (∀ key rs, cb (kiNodeOf s.keyInfo)
        { keyType := if enc then E.encKeyType alg else E.decKeyType alg
          keyUsage := if enc then .encrypt else .decrypt
          keyId := E.algKeyId alg } = some key →
      (xmlSecEncryptedDataNodeRead E ctx h0 enc none (mkTemplate s)).status = .ok rs →
      rs.key = key) := by
  obtain ⟨i, ty, mi, en, ma, ki, ci, pr⟩ := s
  refine ⟨?_, ?_, ?_⟩
  · cases ma <;> cases ki <;> cases enc <;>
      rcases hm with ⟨hm1, hm2⟩ | ⟨hm1, hm2⟩ <;>
      simp_all [xmlSecEncryptedDataNodeRead, mkTemplate, mkChildrenKI, mkMethodL, mkKIL,
        mkCD, cvL, mkPropsL, mkAttrs, algAttr, kiNodeOf, stepMethod, stepKeyInfo,
        stepCipherData, resolveKey, xmlSecGetNextElementNode, xmlSecCheckNodeName,
        nodeAttrs, nodeChildren, noAttrs, xmlSecEncNs, xmlSecDSigNs, hcb] <;>
      (repeat' split) <;> simp_all
  · intro hres
    cases ma <;> cases ki <;> cases enc <;>
      rcases hm with ⟨hm1, hm2⟩ | ⟨hm1, hm2⟩ <;>
      simp_all [xmlSecEncryptedDataNodeRead, mkTemplate, mkChildrenKI, mkMethodL, mkKIL,
        mkCD, cvL, mkPropsL, mkAttrs, algAttr, kiNodeOf, stepMethod, stepKeyInfo,
        stepCipherData, resolveKey, xmlSecGetNextElementNode, xmlSecCheckNodeName,
        nodeAttrs, nodeChildren, noAttrs, xmlSecEncNs, xmlSecDSigNs, hcb]
  · intro key rs hres hst
    cases ma <;> cases ki <;> cases enc <;>
      rcases hm with ⟨hm1, hm2⟩ | ⟨hm1, hm2⟩ <;>
      simp_all [xmlSecEncryptedDataNodeRead, mkTemplate, mkChildrenKI, mkMethodL, mkKIL,
        mkCD, cvL, mkPropsL, mkAttrs, algAttr, kiNodeOf, stepMethod, stepKeyInfo,
        stepCipherData, resolveKey, xmlSecGetNextElementNode, xmlSecCheckNodeName,
        nodeAttrs, nodeChildren, noAttrs, xmlSecEncNs, xmlSecDSigNs, hcb] <;>
      (try split at hst) <;>
      (first
        | (cases hst; rfl)
        | simp_all)

/-- Externals with a key-manager callback that always answers "no key". -/
def testExternalsCbNone : Externals :=
  { testExternals with getKey := some (fun _ _ => none) }

/-- Witness for C4: on a concrete template, with no caller key and a callback
returning nothing, the hints carry the method's metadata for the encrypt
direction and the walk fails with `KeyNotFound`. -/
theorem claim_C4_keyResolution_witness :
    (xmlSecEncryptedDataNodeRead testExternalsCbNone ctx0 hints0 true none
        (mkTemplate shape0)).hints =
      { keyType := 1, keyUsage := .encrypt, keyId := 7 } ∧
    (xmlSecEncryptedDataNodeRead testExternalsCbNone ctx0 hints0 true none
        (mkTemplate shape0)).status = .error .keyNotFound := by
  have h := claim_C4_keyResolution testExternalsCbNone ctx0 hints0 true shape0 "aes"
    (fun _ _ => none) (Or.inl ⟨rfl, rfl⟩) rfl
  exact ⟨h.1, h.2.1 rfl⟩

/-- C5.  After every successful encrypt, the `CipherData` write creates a
`CipherValue` when there was no element child and overwrites the text of an
existing one, so that its text content is a newline, the ciphertext octets,
then a newline; a leading `CipherReference` is left untouched; and any
unexpected trailing element makes the write fail with `invalidNode`. -/
theorem claim_C5_cipherWrite (nm ns : String) (a : Attrs) (cds : List XNode) (buf : Bytes) :
    (xmlSecGetNextElementNode cds = [] →
      xmlSecCipherDataNodeWrite (.elem nm ns a cds) buf =
        (.ok (), .elem nm ns a (cds ++
          [.elem "CipherValue" xmlSecEncNs noAttrs [.text (10 :: (buf ++ [10]))]])) ∧
      xmlNodeGetContent
        (.elem "CipherValue" xmlSecEncNs noAttrs [.text (10 :: (buf ++ [10]))]) =
        10 :: (buf ++ [10])) ∧
    (∀ cv rest, xmlSecGetNextElementNode cds = cv :: rest →
      xmlSecCheckNodeName cv "CipherValue" xmlSecEncNs = true →
      (xmlNodeGetContent (setNodeContent cv (10 :: (buf ++ [10]))) = 10 :: (buf ++ [10])) ∧
      (xmlSecGetNextElementNode rest = [] →
        xmlSecCipherDataNodeWrite (.elem nm ns a cds) buf =
          (.ok (), .elem nm ns a
            (replaceFirstElem (setNodeContent cv (10 :: (buf ++ [10]))) cds))) ∧
      (xmlSecGetNextElementNode rest ≠ [] →
        (xmlSecCipherDataNodeWrite (.elem nm ns a cds) buf).1 = .error .invalidNode)) ∧
    (∀ cr rest, xmlSecGetNextElementNode cds = cr :: rest →
      xmlSecCheckNodeName cr "CipherReference" xmlSecEncNs = true →
      (xmlSecGetNextElementNode rest = [] →
        xmlSecCipherDataNodeWrite (.elem nm ns a cds) buf = (.ok (), .elem nm ns a cds)) ∧
      (xmlSecGetNextElementNode rest ≠ [] →
        (xmlSecCipherDataNodeWrite (.elem nm ns a cds) buf).1 = .error .invalidNode)) := by
  refine ⟨fun h => ⟨?_, ?_⟩, fun cv rest h hn => ⟨?_, fun h2 => ?_, fun h2 => ?_⟩,
    fun cr rest h hn => ⟨fun h2 => ?_, fun h2 => ?_⟩⟩
  · simp [xmlSecCipherDataNodeWrite, h]
  · simp [xmlNodeGetContent, xmlNodeGetContent.goList]
  · cases cv with
    | text b => simp [xmlSecCheckNodeName] at hn
    | elem n2 ns2 a2 cs2 => simp [setNodeContent, xmlNodeGetContent, xmlNodeGetContent.goList]
  · simp [xmlSecCipherDataNodeWrite, h, hn, h2]
  · rcases h3 : xmlSecGetNextElementNode rest with _ | ⟨x, xs⟩
    · exact absurd h3 h2
    · simp [xmlSecCipherDataNodeWrite, h, hn, h3]
  · have hnotcv : xmlSecCheckNodeName cr "CipherValue" xmlSecEncNs = false := by
      cases cr with
      | text b => simp [xmlSecCheckNodeName]
      | elem n2 ns2 a2 cs2 =>
        simp only [xmlSecCheckNodeName, Bool.and_eq_true, decide_eq_true_eq] at hn ⊢
        rcases hn with ⟨rfl, rfl⟩
        simp
    simp [xmlSecCipherDataNodeWrite, h, hn, hnotcv, h2]
  · have hnotcv : xmlSecCheckNodeName cr "CipherValue" xmlSecEncNs = false := by
      cases cr with
      | text b => simp [xmlSecCheckNodeName]
      | elem n2 ns2 a2 cs2 =>
        simp only [xmlSecCheckNodeName, Bool.and_eq_true, decide_eq_true_eq] at hn ⊢
        rcases hn with ⟨rfl, rfl⟩
        simp
    rcases h3 : xmlSecGetNextElementNode rest with _ | ⟨x, xs⟩
    · exact absurd h3 h2
    · simp [xmlSecCipherDataNodeWrite, h, hn, hnotcv, h3]

/-- Witness for C5: writing into an empty `CipherData` creates the
newline-bracketed `CipherValue`. -/
theorem claim_C5_cipherWrite_witness :
    xmlSecCipherDataNodeWrite (.elem "CipherData" xmlSecEncNs noAttrs []) [65, 66] =
      (.ok (), .elem "CipherData" xmlSecEncNs noAttrs
        [.elem "CipherValue" xmlSecEncNs noAttrs [.text [10, 65, 66, 10]]]) ∧
    xmlNodeGetContent
      (.elem "CipherValue" xmlSecEncNs noAttrs [.text (10 :: ([65, 66] ++ [10]))]) =
      10 :: ([65, 66] ++ [10]) :=
  (claim_C5_cipherWrite "CipherData" xmlSecEncNs noAttrs [] [65, 66]).1 rfl

/-- A found child bears the searched name and namespace. -/
theorem findChild_checkName (l : List XNode) (n ns : String) (c : XNode)
    (h : xmlSecFindChild l n ns = some c) : xmlSecCheckNodeName c n ns = true := by
  induction l with
  | nil => simp [xmlSecFindChild] at h
  | cons x xs ih =>
    by_cases hx : xmlSecCheckNodeName x n ns = true
    · simp [xmlSecFindChild, hx] at h
      rw [← h]
      exact hx
    · simp [xmlSecFindChild, hx] at h
      exact ih h

/-- Replacing the first child with a given name by a node of the same name
makes the search find the replacement. -/
theorem findChild_replaceFirstNamed (l : List XNode) (n ns : String) (new : XNode)
    (h : (xmlSecFindChild l n ns).isSome) (hn : xmlSecCheckNodeName new n ns = true) :
    xmlSecFindChild (replaceFirstNamed n ns new l) n ns = some new := by
  induction l with
  | nil => simp [xmlSecFindChild] at h
  | cons x xs ih =>
    by_cases hx : xmlSecCheckNodeName x n ns = true
    · simp [replaceFirstNamed, hx, xmlSecFindChild, hn]
    · simp only [replaceFirstNamed, hx, if_false, Bool.false_eq_true, xmlSecFindChild]
      exact ih (by simpa [xmlSecFindChild, hx] using h)

/-- Searching an appended list skips a prefix without a match. -/
theorem findChild_append_none (l1 l2 : List XNode) (n ns : String)
    (h : xmlSecFindChild l1 n ns = none) :
    xmlSecFindChild (l1 ++ l2) n ns = xmlSecFindChild l2 n ns := by
  induction l1 with
  | nil => simp
  | cons x xs ih =>
    by_cases hx : xmlSecCheckNodeName x n ns = true
    · simp [xmlSecFindChild, hx] at h
    · simp only [xmlSecFindChild, hx, if_false, Bool.false_eq_true, List.cons_append,
        List.append_eq] at h ⊢
      exact ih h

/-- C6.  The builder helpers adding `CipherValue` or `CipherReference` fail
with `NodeAlreadyPresent` whenever the `CipherData` already contains either of
the two, and on success the produced `CipherData` contains the added child
but never both kinds. -/
theorem claim_C6_mutualExclusion (nm ns : String) (a : Attrs) (children : List XNode)
    (uri : Option String) :
    (∀ cd, xmlSecFindChild children "CipherData" xmlSecEncNs = some cd →
      ((xmlSecFindChild (nodeChildren cd) "CipherValue" xmlSecEncNs).isSome ∨
       (xmlSecFindChild (nodeChildren cd) "CipherReference" xmlSecEncNs).isSome) →
      xmlSecEncDataAddCipherValue (.elem nm ns a children) = .error .nodeAlreadyPresent ∧
      xmlSecEncDataAddCipherReference (.elem nm ns a children) uri =
        .error .nodeAlreadyPresent) ∧
    (∀ t', xmlSecEncDataAddCipherValue (.elem nm ns a children) = .ok t' →
      ∃ cd', xmlSecFindChild (nodeChildren t') "CipherData" xmlSecEncNs = some cd' ∧
        (xmlSecFindChild (nodeChildren cd') "CipherValue" xmlSecEncNs).isSome ∧
        xmlSecFindChild (nodeChildren cd') "CipherReference" xmlSecEncNs = none) ∧
    (∀ t', xmlSecEncDataAddCipherReference (.elem nm ns a children) uri = .ok t' →
      ∃ cd', xmlSecFindChild (nodeChildren t') "CipherData" xmlSecEncNs = some cd' ∧
        (xmlSecFindChild (nodeChildren cd') "CipherReference" xmlSecEncNs).isSome ∧
        xmlSecFindChild (nodeChildren cd') "CipherValue" xmlSecEncNs = none) := by
  refine ⟨?_, ?_, ?_⟩
  · intro cd hcd hor
    rcases hcv : xmlSecFindChild (nodeChildren cd) "CipherValue" xmlSecEncNs with _ | c1 <;>
      rcases hcr : xmlSecFindChild (nodeChildren cd) "CipherReference" xmlSecEncNs with _ | c2 <;>
      simp_all [xmlSecEncDataAddCipherValue, xmlSecEncDataAddCipherReference, hcd]
  · intro t' ht'
    rcases hcd : xmlSecFindChild children "CipherData" xmlSecEncNs with _ | cd
    · simp [xmlSecEncDataAddCipherValue, hcd] at ht'
    rcases hcv : xmlSecFindChild (nodeChildren cd) "CipherValue" xmlSecEncNs with _ | c1
    swap
    · simp [xmlSecEncDataAddCipherValue, hcd, hcv] at ht'
    rcases hcr : xmlSecFindChild (nodeChildren cd) "CipherReference" xmlSecEncNs with _ | c2
    swap
    · simp [xmlSecEncDataAddCipherValue, hcd, hcv, hcr] at ht'
    have hname := findChild_checkName children "CipherData" xmlSecEncNs cd hcd
    obtain ⟨a2, cs2, rfl⟩ : ∃ a2 cs2, cd = .elem "CipherData" xmlSecEncNs a2 cs2 := by
      cases cd with
      | text b => simp [xmlSecCheckNodeName] at hname
      | elem n2 ns2 a2 cs2 =>
        simp only [xmlSecCheckNodeName, Bool.and_eq_true, decide_eq_true_eq] at hname
        exact ⟨a2, cs2, by rw [hname.1, hname.2]⟩
    simp only [nodeChildren] at hcv hcr
    simp only [xmlSecEncDataAddCipherValue, hcd, hcv, hcr, nodeChildren, nodeAppendChild,
      Except.ok.injEq] at ht'
    subst ht'
    refine ⟨.elem "CipherData" xmlSecEncNs a2
      (cs2 ++ [.elem "CipherValue" xmlSecEncNs noAttrs []]), ?_, ?_, ?_⟩
    · simp only [nodeChildren]
      exact findChild_replaceFirstNamed children "CipherData" xmlSecEncNs _
        (by simp [hcd]) (by simp [xmlSecCheckNodeName])
    · simp only [nodeChildren]
      rw [findChild_append_none cs2 _ _ _ hcv]
      simp [xmlSecFindChild, xmlSecCheckNodeName]
    · simp only [nodeChildren]
      rw [findChild_append_none cs2 _ _ _ hcr]
      simp [xmlSecFindChild, xmlSecCheckNodeName]
  · intro t' ht'
    rcases hcd : xmlSecFindChild children "CipherData" xmlSecEncNs with _ | cd
    · simp [xmlSecEncDataAddCipherReference, hcd] at ht'
    rcases hcv : xmlSecFindChild (nodeChildren cd) "CipherValue" xmlSecEncNs with _ | c1
    swap
    · simp [xmlSecEncDataAddCipherReference, hcd, hcv] at ht'
    rcases hcr : xmlSecFindChild (nodeChildren cd) "CipherReference" xmlSecEncNs with _ | c2
    swap
    · simp [xmlSecEncDataAddCipherReference, hcd, hcv, hcr] at ht'
    have hname := findChild_checkName children "CipherData" xmlSecEncNs cd hcd
    obtain ⟨a2, cs2, rfl⟩ : ∃ a2 cs2, cd = .elem "CipherData" xmlSecEncNs a2 cs2 := by
      cases cd with
      | text b => simp [xmlSecCheckNodeName] at hname
      | elem n2 ns2 a2 cs2 =>
        simp only [xmlSecCheckNodeName, Bool.and_eq_true, decide_eq_true_eq] at hname
        exact ⟨a2, cs2, by rw [hname.1, hname.2]⟩
    simp only [nodeChildren] at hcv hcr
    simp only [xmlSecEncDataAddCipherReference, hcd, hcv, hcr, nodeChildren, nodeAppendChild,
      Except.ok.injEq] at ht'
    subst ht'
    refine ⟨.elem "CipherData" xmlSecEncNs a2
      (cs2 ++ [.elem "CipherReference" xmlSecEncNs (setPropOpt noAttrs "URI" uri) []]),
      ?_, ?_, ?_⟩
    · simp only [nodeChildren]
      exact findChild_replaceFirstNamed children "CipherData" xmlSecEncNs _
        (by simp [hcd]) (by simp [xmlSecCheckNodeName])
    · simp only [nodeChildren]
      rw [findChild_append_none cs2 _ _ _ hcr]
      simp [xmlSecFindChild, xmlSecCheckNodeName]
    · simp only [nodeChildren]
      rw [findChild_append_none cs2 _ _ _ hcv]
      simp [xmlSecFindChild, xmlSecCheckNodeName]

/-- Witness for C6: with a `CipherValue` already present, adding a
`CipherReference` fails with `NodeAlreadyPresent`, and so does adding a
second `CipherValue`. -/
theorem claim_C6_mutualExclusion_witness :
    xmlSecEncDataAddCipherValue
      (.elem "EncryptedData" xmlSecEncNs noAttrs
        [.elem "CipherData" xmlSecEncNs noAttrs
          [.elem "CipherValue" xmlSecEncNs noAttrs []]]) = .error .nodeAlreadyPresent ∧
    xmlSecEncDataAddCipherReference
      (.elem "EncryptedData" xmlSecEncNs noAttrs
        [.elem "CipherData" xmlSecEncNs noAttrs
          [.elem "CipherValue" xmlSecEncNs noAttrs []]]) none = .error .nodeAlreadyPresent :=
  (claim_C6_mutualExclusion "EncryptedData" xmlSecEncNs noAttrs
    [.elem "CipherData" xmlSecEncNs noAttrs
      [.elem "CipherValue" xmlSecEncNs noAttrs []]] none).1
    (.elem "CipherData" xmlSecEncNs noAttrs [.elem "CipherValue" xmlSecEncNs noAttrs []])
    rfl (Or.inl rfl)

/-! ## Schema-order invariant of the builders (claim C7) -/

/-- The node is an element with the given name and namespace. -/
def named (n : XNode) (name ns : String) : Prop :=
  ∃ a cs, n = .elem name ns a cs

/-- List of an optional node. -/
def optL : Option XNode → List XNode
  | none => []
  | some n => [n]

/-- Invariant maintained by the template builders on the `EncryptedData`
node: the children are an optional `EncryptionMethod`, an optional `KeyInfo`,
the `CipherData`, and an optional `EncryptionProperties`, in that order. -/
def BuilderInv (t : XNode) : Prop :=
  ∃ (nm ns : String) (a : Attrs) (em ki ep : Option XNode) (cdA : Attrs) (cdC : List XNode),
    t = .elem nm ns a
      (optL em ++ optL ki ++ [.elem "CipherData" xmlSecEncNs cdA cdC] ++ optL ep) ∧
    (∀ n, em = some n → named n "EncryptionMethod" xmlSecEncNs) ∧
    (∀ n, ki = some n → named n "KeyInfo" xmlSecDSigNs) ∧
    (∀ n, ep = some n → named n "EncryptionProperties" xmlSecEncNs)

/-- Search misses an optional node bearing a different name or namespace. -/
theorem findChild_optL_none (o : Option XNode) (n1 s1 n2 s2 : String)
    (ho : ∀ n, o = some n → named n n1 s1)
    (hne : xmlSecCheckNodeName (.elem n1 s1 noAttrs []) n2 s2 = false) :
    xmlSecFindChild (optL o) n2 s2 = none := by
  cases o with
  | none => rfl
  | some n =>
    obtain ⟨aN, cN, rfl⟩ := ho n rfl
    simp only [xmlSecCheckNodeName] at hne
    simp [optL, xmlSecFindChild, xmlSecCheckNodeName, hne]

/-- Replacement passes over a prefix without a match. -/
theorem replaceFirstNamed_append_none (l1 l2 : List XNode) (n ns : String) (new : XNode)
    (h : xmlSecFindChild l1 n ns = none) :
    replaceFirstNamed n ns new (l1 ++ l2) = l1 ++ replaceFirstNamed n ns new l2 := by
  induction l1 with
  | nil => simp
  | cons x xs ih =>
    by_cases hx : xmlSecCheckNodeName x n ns = true
    · simp [xmlSecFindChild, hx] at h
    · have h' : xmlSecFindChild xs n ns = none := by
        simpa [xmlSecFindChild, hx] using h
      simp only [List.cons_append, replaceFirstNamed]
      rw [if_neg (by simp [hx])]
      rw [show xs.append l2 = xs ++ l2 from rfl, ih h']

/-- Signatures distribute over append. -/
theorem childSig_append (l1 l2 : List XNode) :
    childSig (l1 ++ l2) = childSig l1 ++ childSig l2 := by
  induction l1 with
  | nil => simp [childSig]
  | cons x xs ih =>
    cases x <;> simp [childSig, ih]

/-- The builder invariant survives one `xmlSecEncDataAddEncMethod` call. -/
theorem applyOp_inv_encMethod (t : XNode) (alg : String) (h : BuilderInv t) :
    BuilderInv (applyOp t (.encMethod alg)) := by
  obtain ⟨nm, ns, a, em, ki, ep, cdA, cdC, rfl, hem, hki, hep⟩ := h
  cases em with
  | some m =>
    obtain ⟨aM, cM, rfl⟩ := hem m rfl
    have : applyOp (.elem nm ns a
        (optL (some (.elem "EncryptionMethod" xmlSecEncNs aM cM)) ++ optL ki ++
          [.elem "CipherData" xmlSecEncNs cdA cdC] ++ optL ep)) (.encMethod alg) =
        .elem nm ns a
          (optL (some (.elem "EncryptionMethod" xmlSecEncNs aM cM)) ++ optL ki ++
            [.elem "CipherData" xmlSecEncNs cdA cdC] ++ optL ep) := by
      simp [applyOp, xmlSecEncDataAddEncMethod, optL, xmlSecFindChild, xmlSecCheckNodeName]
    rw [this]
    exact ⟨nm, ns, a, some (.elem "EncryptionMethod" xmlSecEncNs aM cM), ki, ep, cdA, cdC,
      rfl, hem, hki, hep⟩
  | none =>
    have hfind : xmlSecFindChild
        (optL ki ++ [XNode.elem "CipherData" xmlSecEncNs cdA cdC] ++ optL ep)
        "EncryptionMethod" xmlSecEncNs = none := by
      rw [List.append_assoc, findChild_append_none _ _ _ _
        (findChild_optL_none ki "KeyInfo" xmlSecDSigNs _ _ hki (by decide)),
        findChild_append_none _ _ _ _ (by simp [xmlSecFindChild, xmlSecCheckNodeName]),
        findChild_optL_none ep "EncryptionProperties" xmlSecEncNs _ _ hep (by decide)]
    cases ki with
    | some kn =>
      obtain ⟨aK, cK, rfl⟩ := hki kn rfl
      simp only [applyOp, xmlSecEncDataAddEncMethod, optL, List.nil_append] at hfind ⊢
      rw [hfind]
      simp only [xmlSecGetNextElementNode, List.cons_append, insertBeforeFirstElem]
      exact ⟨nm, ns, a,
        some (.elem "EncryptionMethod" xmlSecEncNs (setPropOpt noAttrs "Algorithm" (some alg)) []),
        some (.elem "KeyInfo" xmlSecDSigNs aK cK), ep, cdA, cdC, rfl,
        fun n hn => by cases hn; exact ⟨_, _, rfl⟩, hki, hep⟩
    | none =>
      simp only [applyOp, xmlSecEncDataAddEncMethod, optL, List.nil_append] at hfind ⊢
      rw [hfind]
      simp only [xmlSecGetNextElementNode, List.cons_append, insertBeforeFirstElem]
      exact ⟨nm, ns, a,
        some (.elem "EncryptionMethod" xmlSecEncNs (setPropOpt noAttrs "Algorithm" (some alg)) []),
        none, ep, cdA, cdC, rfl,
        fun n hn => by cases hn; exact ⟨_, _, rfl⟩, hki, hep⟩

/-- The builder invariant survives one `xmlSecEncDataAddKeyInfo` call. -/
theorem applyOp_inv_keyInfo (t : XNode) (h : BuilderInv t) :
    BuilderInv (applyOp t .keyInfo) := by
  obtain ⟨nm, ns, a, em, ki, ep, cdA, cdC, rfl, hem, hki, hep⟩ := h
  have hemNone : xmlSecFindChild (optL em) "KeyInfo" xmlSecDSigNs = none :=
    findChild_optL_none em "EncryptionMethod" xmlSecEncNs _ _ hem (by decide)
  cases ki with
  | some kn =>
    obtain ⟨aK, cK, rfl⟩ := hki kn rfl
    have hfind : xmlSecFindChild
        (optL em ++ optL (some (.elem "KeyInfo" xmlSecDSigNs aK cK)) ++
          [XNode.elem "CipherData" xmlSecEncNs cdA cdC] ++ optL ep)
        "KeyInfo" xmlSecDSigNs = some (.elem "KeyInfo" xmlSecDSigNs aK cK) := by
      rw [List.append_assoc, List.append_assoc,
        findChild_append_none _ _ _ _ hemNone]
      simp [optL, xmlSecFindChild, xmlSecCheckNodeName]
    have heq : applyOp (.elem nm ns a
        (optL em ++ optL (some (.elem "KeyInfo" xmlSecDSigNs aK cK)) ++
          [XNode.elem "CipherData" xmlSecEncNs cdA cdC] ++ optL ep)) .keyInfo =
        .elem nm ns a
          (optL em ++ optL (some (.elem "KeyInfo" xmlSecDSigNs aK cK)) ++
            [XNode.elem "CipherData" xmlSecEncNs cdA cdC] ++ optL ep) := by
      simp only [applyOp, xmlSecEncDataAddKeyInfo]
      rw [hfind]
    rw [heq]
    exact ⟨nm, ns, a, em, some (.elem "KeyInfo" xmlSecDSigNs aK cK), ep, cdA, cdC,
      rfl, hem, hki, hep⟩
  | none =>
    have hfind : xmlSecFindChild
        (optL em ++ optL none ++ [XNode.elem "CipherData" xmlSecEncNs cdA cdC] ++ optL ep)
        "KeyInfo" xmlSecDSigNs = none := by
      rw [List.append_assoc, List.append_assoc, findChild_append_none _ _ _ _ hemNone,
        show optL (none : Option XNode) = [] from rfl]
      rw [show ([] : List XNode) ++ ([XNode.elem "CipherData" xmlSecEncNs cdA cdC] ++ optL ep) =
        [XNode.elem "CipherData" xmlSecEncNs cdA cdC] ++ optL ep from rfl]
      rw [findChild_append_none _ _ _ _ (by simp [xmlSecFindChild, xmlSecCheckNodeName]),
        findChild_optL_none ep "EncryptionProperties" xmlSecEncNs _ _ hep (by decide)]
    cases em with
    | some m =>
      obtain ⟨aM, cM, rfl⟩ := hem m rfl
      have hprev : xmlSecFindChild
          (optL (some (.elem "EncryptionMethod" xmlSecEncNs aM cM)) ++ optL none ++
            [XNode.elem "CipherData" xmlSecEncNs cdA cdC] ++ optL ep)
          "EncryptionMethod" xmlSecEncNs =
          some (.elem "EncryptionMethod" xmlSecEncNs aM cM) := by
        simp [optL, xmlSecFindChild, xmlSecCheckNodeName]
      simp only [applyOp, xmlSecEncDataAddKeyInfo]
      rw [hfind, hprev]
      simp only [optL, List.nil_append, List.cons_append, insertAfterNamed,
        if_pos (by simp [xmlSecCheckNodeName] : xmlSecCheckNodeName
          (.elem "EncryptionMethod" xmlSecEncNs aM cM) "EncryptionMethod" xmlSecEncNs = true)]
      exact ⟨nm, ns, a, some (.elem "EncryptionMethod" xmlSecEncNs aM cM),
        some (.elem "KeyInfo" xmlSecDSigNs noAttrs []), ep, cdA, cdC, rfl,
        hem, fun n hn => by cases hn; exact ⟨_, _, rfl⟩, hep⟩
    | none =>
      have hprev : xmlSecFindChild
          (optL (none : Option XNode) ++ optL none ++
            [XNode.elem "CipherData" xmlSecEncNs cdA cdC] ++ optL ep)
          "EncryptionMethod" xmlSecEncNs = none := by
        rw [show optL (none : Option XNode) ++ optL none ++
            [XNode.elem "CipherData" xmlSecEncNs cdA cdC] ++ optL ep =
          [XNode.elem "CipherData" xmlSecEncNs cdA cdC] ++ optL ep from rfl]
        rw [findChild_append_none _ _ _ _ (by simp [xmlSecFindChild, xmlSecCheckNodeName]),
          findChild_optL_none ep "EncryptionProperties" xmlSecEncNs _ _ hep (by decide)]
      simp only [applyOp, xmlSecEncDataAddKeyInfo]
      rw [hfind, hprev]
      simp only [optL, List.nil_append, List.cons_append, xmlSecGetNextElementNode,
        insertBeforeFirstElem]
      exact ⟨nm, ns, a, none, some (.elem "KeyInfo" xmlSecDSigNs noAttrs []), ep, cdA, cdC,
        rfl, hem, fun n hn => by cases hn; exact ⟨_, _, rfl⟩, hep⟩

/-- The builder invariant survives one `xmlSecEncDataAddEncProperties` call. -/
theorem applyOp_inv_encProperties (t : XNode) (i : Option String) (h : BuilderInv t) :
    BuilderInv (applyOp t (.encProperties i)) := by
  obtain ⟨nm, ns, a, em, ki, ep, cdA, cdC, rfl, hem, hki, hep⟩ := h
  have hpre : xmlSecFindChild (optL em ++ optL ki ++
      [XNode.elem "CipherData" xmlSecEncNs cdA cdC]) "EncryptionProperties" xmlSecEncNs =
      none := by
    rw [List.append_assoc,
      findChild_append_none _ _ _ _
        (findChild_optL_none em "EncryptionMethod" xmlSecEncNs _ _ hem (by decide)),
      findChild_append_none _ _ _ _
        (findChild_optL_none ki "KeyInfo" xmlSecDSigNs _ _ hki (by decide))]
    simp [xmlSecFindChild, xmlSecCheckNodeName]
  cases ep with
  | some pn =>
    obtain ⟨aP, cP, rfl⟩ := hep pn rfl
    have hfind : xmlSecFindChild
        (optL em ++ optL ki ++ [XNode.elem "CipherData" xmlSecEncNs cdA cdC] ++
          optL (some (.elem "EncryptionProperties" xmlSecEncNs aP cP)))
        "EncryptionProperties" xmlSecEncNs =
        some (.elem "EncryptionProperties" xmlSecEncNs aP cP) := by
      rw [findChild_append_none _ _ _ _ hpre]
      simp [optL, xmlSecFindChild, xmlSecCheckNodeName]
    simp only [applyOp, xmlSecEncDataAddEncProperties]
    rw [hfind]
    exact ⟨nm, ns, a, em, ki, some (.elem "EncryptionProperties" xmlSecEncNs aP cP), cdA, cdC,
      rfl, hem, hki, hep⟩
  | none =>
    have hfind : xmlSecFindChild
        (optL em ++ optL ki ++ [XNode.elem "CipherData" xmlSecEncNs cdA cdC] ++
          optL (none : Option XNode)) "EncryptionProperties" xmlSecEncNs = none := by
      rw [findChild_append_none _ _ _ _ hpre]
      rfl
    simp only [applyOp, xmlSecEncDataAddEncProperties]
    rw [hfind]
    refine ⟨nm, ns, a, em, ki,
      some (.elem "EncryptionProperties" xmlSecEncNs (setPropOpt noAttrs "Id" i) []),
      cdA, cdC, by simp [optL], hem, hki, fun n hn => by cases hn; exact ⟨_, _, rfl⟩⟩

/-- The cipher-data node of an invariant state is found first. -/
theorem findChild_cd (em ki ep : Option XNode) (cdA : Attrs) (cdC : List XNode)
    (hem : ∀ n, em = some n → named n "EncryptionMethod" xmlSecEncNs)
    (hki : ∀ n, ki = some n → named n "KeyInfo" xmlSecDSigNs) :
    xmlSecFindChild
      (optL em ++ optL ki ++ [XNode.elem "CipherData" xmlSecEncNs cdA cdC] ++ optL ep)
      "CipherData" xmlSecEncNs = some (.elem "CipherData" xmlSecEncNs cdA cdC) := by
  rw [List.append_assoc, List.append_assoc,
    findChild_append_none _ _ _ _
      (findChild_optL_none em "EncryptionMethod" xmlSecEncNs _ _ hem (by decide)),
    findChild_append_none _ _ _ _
      (findChild_optL_none ki "KeyInfo" xmlSecDSigNs _ _ hki (by decide))]
  simp [xmlSecFindChild, xmlSecCheckNodeName]

/-- Replacement of the cipher-data node of an invariant state. -/
theorem replaceFirstNamed_cd (em ki ep : Option XNode) (cdA : Attrs) (cdC : List XNode)
    (new : XNode)
    (hem : ∀ n, em = some n → named n "EncryptionMethod" xmlSecEncNs)
    (hki : ∀ n, ki = some n → named n "KeyInfo" xmlSecDSigNs) :
    replaceFirstNamed "CipherData" xmlSecEncNs new
      (optL em ++ optL ki ++ [XNode.elem "CipherData" xmlSecEncNs cdA cdC] ++ optL ep) =
      optL em ++ optL ki ++ [new] ++ optL ep := by
  rw [List.append_assoc, List.append_assoc,
    replaceFirstNamed_append_none _ _ _ _ _
      (findChild_optL_none em "EncryptionMethod" xmlSecEncNs _ _ hem (by decide)),
    replaceFirstNamed_append_none _ _ _ _ _
      (findChild_optL_none ki "KeyInfo" xmlSecDSigNs _ _ hki (by decide))]
  simp only [List.cons_append, List.nil_append, replaceFirstNamed,
    if_pos (by simp [xmlSecCheckNodeName] : xmlSecCheckNodeName
      (.elem "CipherData" xmlSecEncNs cdA cdC) "CipherData" xmlSecEncNs = true)]
  simp [List.append_assoc]

/-- The builder invariant survives one `xmlSecEncDataAddCipherValue` call. -/
theorem applyOp_inv_cipherValue (t : XNode) (h : BuilderInv t) :
    BuilderInv (applyOp t .cipherValue) := by
  obtain ⟨nm, ns, a, em, ki, ep, cdA, cdC, rfl, hem, hki, hep⟩ := h
  simp only [applyOp, xmlSecEncDataAddCipherValue]
  rw [findChild_cd em ki ep cdA cdC hem hki]
  simp only [nodeChildren]
  rcases hcv : xmlSecFindChild cdC "CipherValue" xmlSecEncNs with _ | c1
  · rcases hcr : xmlSecFindChild cdC "CipherReference" xmlSecEncNs with _ | c2
    · simp only [nodeAppendChild]
      rw [replaceFirstNamed_cd em ki ep cdA cdC _ hem hki]
      exact ⟨nm, ns, a, em, ki, ep, cdA,
        cdC ++ [.elem "CipherValue" xmlSecEncNs noAttrs []], rfl, hem, hki, hep⟩
    · exact ⟨nm, ns, a, em, ki, ep, cdA, cdC, rfl, hem, hki, hep⟩
  · exact ⟨nm, ns, a, em, ki, ep, cdA, cdC, rfl, hem, hki, hep⟩

/-- The builder invariant survives one `xmlSecEncDataAddCipherReference` call. -/
theorem applyOp_inv_cipherReference (t : XNode) (u : Option String) (h : BuilderInv t) :
    BuilderInv (applyOp t (.cipherReference u)) := by
  obtain ⟨nm, ns, a, em, ki, ep, cdA, cdC, rfl, hem, hki, hep⟩ := h
  simp only [applyOp, xmlSecEncDataAddCipherReference]
  rw [findChild_cd em ki ep cdA cdC hem hki]
  simp only [nodeChildren]
  rcases hcv : xmlSecFindChild cdC "CipherValue" xmlSecEncNs with _ | c1
  · rcases hcr : xmlSecFindChild cdC "CipherReference" xmlSecEncNs with _ | c2
    · simp only [nodeAppendChild]
      rw [replaceFirstNamed_cd em ki ep cdA cdC _ hem hki]
      exact ⟨nm, ns, a, em, ki, ep, cdA,
        cdC ++ [.elem "CipherReference" xmlSecEncNs (setPropOpt noAttrs "URI" u) []],
        rfl, hem, hki, hep⟩
    · exact ⟨nm, ns, a, em, ki, ep, cdA, cdC, rfl, hem, hki, hep⟩
  · exact ⟨nm, ns, a, em, ki, ep, cdA, cdC, rfl, hem, hki, hep⟩

/-- The builder invariant survives any builder call. -/
theorem applyOp_inv (t : XNode) (op : BuildOp) (h : BuilderInv t) :
    BuilderInv (applyOp t op) := by
  cases op with
  | encMethod alg => exact applyOp_inv_encMethod t alg h
  | keyInfo => exact applyOp_inv_keyInfo t h
  | encProperties i => exact applyOp_inv_encProperties t i h
  | cipherValue => exact applyOp_inv_cipherValue t h
  | cipherReference u => exact applyOp_inv_cipherReference t u h

/-- The builder invariant survives any sequence of builder calls. -/
theorem applyOps_inv (ops : List BuildOp) (t : XNode) (h : BuilderInv t) :
    BuilderInv (applyOps t ops) := by
  induction ops generalizing t with
  | nil => exact h
  | cons op rest ih => exact ih (applyOp t op) (applyOp_inv t op h)

/-- An invariant state has its element children in schema order. -/
theorem builderInv_schemaOrdered (t : XNode) (h : BuilderInv t) : schemaOrdered t := by
  obtain ⟨nm, ns, a, em, ki, ep, cdA, cdC, rfl, hem, hki, hep⟩ := h
  refine ⟨em.isSome, ki.isSome, ep.isSome, ?_⟩
  simp only [nodeChildren, childSig_append]
  have hcs : ∀ (o : Option XNode) (n1 s1 : String),
      (∀ n, o = some n → named n n1 s1) →
      childSig (optL o) = if o.isSome then [(n1, s1)] else [] := by
    intro o n1 s1 ho
    cases o with
    | none => rfl
    | some n =>
      obtain ⟨aN, cN, rfl⟩ := ho n rfl
      simp [optL, childSig]
  rw [hcs em _ _ hem, hcs ki _ _ hki, hcs ep _ _ hep]
  simp [childSig]

/-- C7.  For every `EncryptedData` node built with the template helpers,
after any sequence of helper calls in any order (failing calls leaving the
tree unchanged), the element children appear in the schema order
`EncryptionMethod?, KeyInfo?, CipherData, EncryptionProperties?`. -/
theorem claim_C7_schemaOrder (ops : List BuildOp) (i ty mt enc : Option String) :
    schemaOrdered (applyOps (xmlSecEncDataCreate i ty mt enc) ops) := by
  apply builderInv_schemaOrdered
  refine applyOps_inv ops _ ⟨"EncryptedData", xmlSecEncNs,
    setPropOpt (setPropOpt (setPropOpt (setPropOpt noAttrs "Id" i) "Type" ty) "MimeType" mt)
      "Encoding" enc, none, none, none, noAttrs, [], ?_, ?_, ?_, ?_⟩
  · simp [xmlSecEncDataCreate, optL]
  · intro n hn
    cases hn
  · intro n hn
    cases hn
  · intro n hn
    cases hn

/-- C8 (amended).  The template-builder helpers do not verify that the node
given as parent is an `EncryptedData` (or `CipherData`) element: each helper
only asserts the pointer non-NULL and operates on whatever element it is
given, inserting children under it whatever its name; the cipher helpers fail
with `NodeNotFound` exactly when the parent lacks a `CipherData` child,
regardless of the parent's own name. -/
theorem claim_C8_noParentCheck (nm ns : String) (a : Attrs) (alg : String)
    (uri : Option String) :
    xmlSecEncDataAddEncMethod (.elem nm ns a []) alg =
      .ok (.elem nm ns a
        [.elem "EncryptionMethod" xmlSecEncNs (setPropOpt noAttrs "Algorithm" (some alg)) []]) ∧
    xmlSecEncDataAddKeyInfo (.elem nm ns a []) =
      .ok (.elem nm ns a [.elem "KeyInfo" xmlSecDSigNs noAttrs []]) ∧
    (∀ i, xmlSecEncDataAddEncProperties (.elem nm ns a []) i =
      .ok (.elem nm ns a
        [.elem "EncryptionProperties" xmlSecEncNs (setPropOpt noAttrs "Id" i) []])) ∧
    (∀ children, xmlSecFindChild children "CipherData" xmlSecEncNs = none →
      xmlSecEncDataAddCipherValue (.elem nm ns a children) = .error .nodeNotFound ∧
      xmlSecEncDataAddCipherReference (.elem nm ns a children) uri =
        .error .nodeNotFound) := by
  refine ⟨?_, ?_, fun i => ?_, fun children hcd => ⟨?_, ?_⟩⟩
  · simp [xmlSecEncDataAddEncMethod, xmlSecFindChild, xmlSecGetNextElementNode]
  · simp [xmlSecEncDataAddKeyInfo, xmlSecFindChild, xmlSecGetNextElementNode]
  · simp [xmlSecEncDataAddEncProperties, xmlSecFindChild]
  · simp [xmlSecEncDataAddCipherValue, hcd]
  · simp [xmlSecEncDataAddCipherReference, hcd]

/-- Counterexample for C8 as stated: `xmlSecEncDataAddEncMethod` applied to
an element that is not an `EncryptedData` does not fail — it happily inserts
an `EncryptionMethod` child under it. -/
theorem claim_C8_counterexample :
    xmlSecEncDataAddEncMethod (.elem "Foo" "urn:other" noAttrs []) "aes" =
      .ok (.elem "Foo" "urn:other" noAttrs
        [.elem "EncryptionMethod" xmlSecEncNs
          (setPropOpt noAttrs "Algorithm" (some "aes")) []]) := by
  rfl

/-- Witness for C8 (amended): the cipher helper on a childless element named
`Foo` fails with `NodeNotFound` (not because of the parent's name). -/
theorem claim_C8_noParentCheck_witness :
    xmlSecEncDataAddCipherValue (.elem "Foo" "urn:other" noAttrs []) =
      .error .nodeNotFound ∧
    xmlSecEncDataAddCipherReference (.elem "Foo" "urn:other" noAttrs []) none =
      .error .nodeNotFound :=
  (claim_C8_noParentCheck "Foo" "urn:other" noAttrs "aes" none).2.2.2 [] rfl

/-- Template whose `CipherData` holds a `CipherValue` followed by an
unexpected trailing element, making `xmlSecCipherDataNodeWrite` fail. -/
def badCipherTemplate : XNode :=
  .elem "EncryptedData" xmlSecEncNs noAttrs
    [.elem "EncryptionMethod" xmlSecEncNs (algAttr "aes") [],
     .elem "CipherData" xmlSecEncNs noAttrs
       [.elem "CipherValue" xmlSecEncNs noAttrs [.text [65]],
        .elem "Rubbish" xmlSecEncNs noAttrs []]]

/-- C9.  When writing the ciphertext back into the template fails,
`xmlSecEncStateWriteResult` destroys the Result and the Session (lines
1190-1196) and then `xmlSecEncryptMemory` destroys both again (lines
677-685): on this failing input each of the two owned resources is destroyed
twice, not exactly once as the spec requires. -/
theorem claim_C9_doubleFree :
    (xmlSecEncryptMemory testExternals ctx0 hints0 (some key0)
        badCipherTemplate [1]).status = .error .invalidNode ∧
    (xmlSecEncryptMemory testExternals ctx0 hints0 (some key0)
        badCipherTemplate [1]).resultFrees = 2 ∧
    (xmlSecEncryptMemory testExternals ctx0 hints0 (some key0)
        badCipherTemplate [1]).stateFrees = 2 :=
  ⟨rfl, rfl, rfl⟩

/-- C10.  Every public operation called with a non-null key sets the result's
key by duplicating it and copying the `origin` tag through the duplicate with
no NULL check, so the operations are free of that null dereference only under
the precondition that duplication succeeds: when `xmlSecKeyDuplicate` returns
NULL, every operation dereferences it, and when it succeeds the installed key
is the duplicate with the caller key's origin. -/
theorem claim_C10_keyInstall (E : Externals) (ctx : EncCtx) (h0 : KeyHints) (k : Key)
    (encNode src : XNode) (buf : Bytes) (uri : String) :
    (E.keyDuplicate k = none →
      (xmlSecEncryptMemory E ctx h0 (some k) encNode buf).status = .error .nullDeref ∧
      (xmlSecEncryptUri E ctx h0 (some k) encNode uri).status = .error .nullDeref ∧
      (xmlSecEncryptXmlNode E ctx h0 (some k) encNode src).status = .error .nullDeref ∧
      (xmlSecDecrypt E ctx h0 (some k) encNode).status = .error .nullDeref) ∧
    (∀ d, E.keyDuplicate k = some d →
      installCallerKey E k = .ok { value := d.value, origin := k.origin }) := by
  constructor
  · intro hd
    refine ⟨?_, ?_, ?_, ?_⟩ <;>
      simp [xmlSecEncryptMemory, xmlSecEncryptUri, xmlSecEncryptXmlNode, xmlSecDecrypt,
        installCallerKey, hd]
  · intro d hd
    simp [installCallerKey, hd]

/-- Externals whose key duplication fails, as on heap exhaustion. -/
def testExternalsNoDup : Externals :=
  { testExternals with keyDuplicate := fun _ => none }

/-- Witness for C10: with failing key duplication, `encrypt_memory` hits the
null dereference. -/
theorem claim_C10_keyInstall_witness :
    testExternalsNoDup.keyDuplicate key0 = none ∧
    (xmlSecEncryptMemory testExternalsNoDup ctx0 hints0 (some key0)
        (mkTemplate shape0) [1]).status = .error .nullDeref :=
  ⟨rfl, ((claim_C10_keyInstall testExternalsNoDup ctx0 hints0 key0
    (mkTemplate shape0) src0 [1] "u").1 rfl).1⟩

end XmlSec
